import Mathlib

/-!
# gocherwell: a shallow embedding of the Cherwell REST client

The definitions below follow `src/gocherwell.go`. Go strings are Lean strings
(the placeholder tokens are single ASCII characters, so replacing on characters
and replacing on bytes agree), Go maps are partial functions from keys, pointers
that may be nil are `Option`s, and everything outside the repository (the clock,
`time.Parse`, `net/http`, `encoding/json`) is a field of `World`.
-/

set_option autoImplicit false

namespace Gocherwell

/-! ## Time (the part of Go's `time` package that `validateToken` uses) -/

/-- A wall-clock instant the way Go's `time.Time` stores it: whole seconds and a
nanosecond part in `[0, 999999999]`. -/
structure Time where
  sec : Int
  nsec : Nat
  deriving DecidableEq, Repr

/-- The nanosecond part is in range. -/
def Time.wf (t : Time) : Prop := t.nsec < 1000000000

instance (t : Time) : Decidable t.wf := by
  unfold Time.wf; infer_instance

/-- The position of an instant on the nanosecond time line. -/
def Time.toNanos (t : Time) : Int := t.sec * 1000000000 + t.nsec

/-- Go's `Time.Add(d)` for a duration `d` in nanoseconds: the whole seconds of `d`
(truncated toward zero) go to `sec`, the rest to `nsec`, with one carry or borrow. -/
def Time.Add (t : Time) (d : Int) : Time :=
  let dsec := Int.tdiv d 1000000000
  let nsec := (t.nsec : Int) + Int.tmod d 1000000000
  if nsec ≥ 1000000000 then ⟨t.sec + (dsec + 1), (nsec - 1000000000).toNat⟩
  else if nsec < 0 then ⟨t.sec + (dsec - 1), (nsec + 1000000000).toNat⟩
  else ⟨t.sec + dsec, nsec.toNat⟩

/-- Go's `Time.Before(u)` on wall-clock readings. -/
def Time.Before (t u : Time) : Bool :=
  decide (t.sec < u.sec) || (decide (t.sec = u.sec) && decide (t.nsec < u.nsec))

/-- The constant `time.Minute`, in nanoseconds. -/
def Minute : Int := 60 * 1000000000

/-! ## Data model -/

/-- The struct `Client`. -/
structure Client where
  User : String := ""
  Password : String := ""
  ClientID : String := ""
  BaseURI : String := ""
  Expires : String := ""
  Issued : String := ""
  Access_token : String := ""
  Token_type : String := ""
  Refresh_token : String := ""
  Expires_in : Int := 0
  Accept : String := ""
  Grant_Type : String := ""
  Auth_mode : String := ""
  deriving DecidableEq, Repr

/-- The constructor `NewClient`: the six arguments are stored, every other field
keeps its zero value. -/
def NewClient (user password clientID baseURI auth_mode grant_type : String) : Client :=
  { User := user, Password := password, ClientID := clientID, BaseURI := baseURI,
    Auth_mode := auth_mode, Grant_Type := grant_type }

/-- The method `validateToken`; `parse` is `time.Parse(time.RFC1123, ·)` and `now`
is the reading of `time.Now()`. -/
def validateToken (parse : String → Option Time) (now : Time) (cl : Client) : Bool :=
  match parse cl.Expires with
  | none => false
  | some t => now.Before (t.Add (Minute * -5))

/-! ## Strings and maps -/

/-- A Go `map[string]β`: a key is present when it is mapped to `some`. A nil map
reads like the empty map. -/
abbrev GoMap (β : Type) := String → Option β

/-- The empty (or nil) map. -/
def GoMap.empty {β : Type} : GoMap β := fun _ => none

/-- The assignment `m[k] = v`. -/
def GoMap.insert {β : Type} (m : GoMap β) (k : String) (v : β) : GoMap β :=
  fun k' => if k' = k then some v else m k'

/-- Replacing the first occurrence of `old` in `s` by `new`, on character lists. -/
def replaceOnce (old new : List Char) : List Char → List Char
  | [] => if old = [] then new else []
  | c :: s =>
    if old.isPrefixOf (c :: s) then new ++ (c :: s).drop old.length
    else c :: replaceOnce old new s

/-- The call `strings.Replace(s, old, new, 1)`. -/
def Replace1 (s old new : String) : String :=
  ⟨replaceOnce old.data new.data s.data⟩

/-! ## URI templates and placeholders -/

def deleteBusObRecURI : String := "api/V1/deletebusinessobject/busobid/$/busobrecid/#"
def saveBusObRecURI : String := "api/V1/savebusinessobject"
def getSearchResultsURI : String := "api/V1/getsearchresults"
def getBusObTemplateURI : String := "api/V1/getbusinessobjecttemplate"
def getQuickSearchResultsURI : String := "api/V1/getquicksearchresults"
def getBusObRecByRecIdURI : String := "api/v1/getbusinessobject/busobid/$/busobrecid/#"
def getBusObRecByPublicIdURI : String := "api/v1/getbusinessobject/busobid/$/publicid/*"
def getBusObSchemaURI : String :=
  "api/v1/getbusinessobjectschema/busobid/$?includerelationships=true"
def getBusObSummariesAllURI : String := "api/v1/getbusinessobjectsummaries/type/All"
def getRelatedBusObURI : String :=
  "api/V1/getrelatedbusinessobject/parentbusobid/$/parentbusobrecid/#/relationshipid/?"
def linkBusObRecURI : String :=
  "api/V2/linkrelatedbusinessobject/parentbusobid/$/parentbusobrecid/#/relationshipid/?/busobid/&/busobrecid/+"
def unlinkBusObRecURI : String :=
  "api/V1/unlinkrelatedbusinessobject/parentbusobid/$/parentbusobrecid/#/relationshipid/?/busobid/&/busobrecid/+"

def busobid : String := "$"
def busobrecid : String := "#"
def busobpublicid : String := "*"
def relationshipid : String := "?"
def childbusobid : String := "&"
def childbusobrecid : String := "+"

/-- One `if val, ok := values[key]; ok { uri = strings.Replace(uri, tok, val, 1) }`
block of `formatURI`. -/
def substKey (values : GoMap String) (key tok : String) (uri : String) : String :=
  match values key with
  | some val => Replace1 uri tok val
  | none => uri

/-- The function `formatURI`: six guarded replacements, in the order of the source. -/
def formatURI (uri : String) (values : GoMap String) : String :=
  let uri := substKey values "busobid" busobid uri
  let uri := substKey values "busobrecid" busobrecid uri
  let uri := substKey values "busobpublicid" busobpublicid uri
  let uri := substKey values "childbusobid" childbusobid uri
  let uri := substKey values "childbusobrecid" childbusobrecid uri
  let uri := substKey values "relationshipid" relationshipid uri
  uri

/-- The key of `formatURI` that guards the replacement of a placeholder character. -/
def keyOf (c : Char) : Option String :=
  if c = '$' then some "busobid"
  else if c = '#' then some "busobrecid"
  else if c = '*' then some "busobpublicid"
  else if c = '?' then some "relationshipid"
  else if c = '&' then some "childbusobid"
  else if c = '+' then some "childbusobrecid"
  else none

/-- The placeholder characters whose key is present in `values`. -/
def presentTokens (values : GoMap String) : List Char :=
  ['$', '#', '*', '?', '&', '+'].filter
    (fun c => match keyOf c with
      | some k => (values k).isSome
      | none => false)

/-- The six placeholder characters. -/
def placeholders : List Char := ['$', '#', '*', '?', '&', '+']

/-- No placeholder character occurs in `s`. -/
def placeholderFree (s : String) : Prop := ∀ c ∈ s.data, c ∉ placeholders

instance (s : String) : Decidable (placeholderFree s) := by
  unfold placeholderFree; infer_instance

/-- How a result `out` may differ from a URI `uri`: walking the URI from the left
with the characters already passed in `seen`, a character is either copied, or, if
it is a token of `P` that has not occurred before, replaced by some string. -/
inductive FirstOnly (P : List Char) : List Char → List Char → List Char → Prop
  | nil (seen : List Char) : FirstOnly P seen [] []
  | keep (seen : List Char) (c : Char) (us out : List Char) :
      FirstOnly P (c :: seen) us out → FirstOnly P seen (c :: us) (c :: out)
  | repl (seen : List Char) (c : Char) (w us out : List Char) :
      c ∈ P → c ∉ seen → FirstOnly P (c :: seen) us out →
      FirstOnly P seen (c :: us) (w ++ out)

/-! ## Records -/

/-- A value of Go's `interface{}` as far as the code looks at it: nil, a string,
or a value of another dynamic type, of which only the `fmt.Sprint` rendering
matters. -/
inductive Iface where
  | nil
  | str (s : String)
  | int (n : Int)
  | bool (b : Bool)
  | other (rendered : String)
  deriving DecidableEq, Repr

/-- The rendering `fmt.Sprint(v)`. -/
def Sprint : Iface → String
  | .nil => "<nil>"
  | .str s => s
  | .int n => toString n
  | .bool b => if b then "true" else "false"
  | .other r => r

/-- The struct `Field`. -/
structure Field where
  Dirty : Bool := false
  DisplayName : String := ""
  Html : String := ""
  Name : String := ""
  Value : String := ""
  FieldID : String := ""
  FullFieldID : String := ""
  deriving DecidableEq, Repr

/-- The struct `Error`. -/
structure Error where
  ErrorCode : String := ""
  ErrorMessage : String := ""
  HasError : Bool := false
  HTTPStatusCode : String := ""
  deriving DecidableEq, Repr

/-- The struct `Link`. -/
structure Link where
  Name : String := ""
  URL : String := ""
  deriving DecidableEq, Repr

/-- The struct `BusinessObjectRecord`. `FieldValues` carries the tag `json:"-"`. -/
structure BusinessObjectRecord where
  BusObID : String := ""
  BusObRecID : String := ""
  BusObPublicID : String := ""
  CacheKey : String := ""
  CacheScope : String := ""
  Fields : List Field := []
  Persist : Bool := false
  FieldValidationErrors : List Iface := []
  Error : Error := {}
  NotificationTriggers : List Iface := []
  Links : List Link := []
  FieldValues : GoMap Iface := GoMap.empty

/-- The map read `m[k]` on a `map[string]interface{}`: nil for a missing key. -/
def GoMap.index (m : GoMap Iface) (k : String) : Iface := (m k).getD Iface.nil

/-- The loop of `processFields`: `fields[f.DisplayName] = f.Value` for each field. -/
def collectFields (fs : List Field) : GoMap Iface :=
  fs.foldl (fun m f => m.insert f.DisplayName (Iface.str f.Value)) GoMap.empty

/-- The method `processFields`. -/
def processFields (rec : BusinessObjectRecord) : BusinessObjectRecord :=
  { rec with FieldValues := collectFields rec.Fields }

/-- One iteration `i` of the loop of `SaveBusinessObjectRecord`: `f` is the element
`rec.Fields[i]`, and the element is rewritten in place when `f.Value` differs from
`rec.FieldValues[f.DisplayName]`. -/
def syncAt (fv : GoMap Iface) (fields : List Field) (i : Nat) : List Field :=
  match fields.get? i with
  | none => fields
  | some f =>
    if Iface.str f.Value ≠ fv.index f.DisplayName then
      fields.modify (fun g => { g with Value := Sprint (fv.index f.DisplayName), Dirty := true }) i
    else fields

/-- The loop `for i, f := range rec.Fields` of `SaveBusinessObjectRecord`. -/
def syncFields (fv : GoMap Iface) (fields : List Field) : List Field :=
  (List.range fields.length).foldl (syncAt fv) fields

/-! ## The world outside the repository -/

/-- An HTTP request as the client builds it: method, URL, body and the three
headers the code sets (the empty string for a header that is not set). -/
structure HttpRequest where
  method : String
  url : String
  body : String
  contentType : String
  accept : String
  authorization : String
  deriving DecidableEq, Repr

/-- An HTTP response: what `ioutil.ReadAll(resp.Body)` yields, `none` when reading
the body fails. -/
structure Response where
  body : Option String
  deriving DecidableEq, Repr

/-- Everything the client calls outside the repository, over a server state `σ`.
* `now` is `time.Now()`, `parseRFC1123` is `time.Parse(time.RFC1123, ·)`;
* `formEncode` is `url.Values.Encode` of the parameters added;
* `newRequestFails method url` tells whether `http.NewRequest` returns an error;
* `send` is `http.DefaultClient.Do`: `none` is a transport error;
* `jsonClient body p` is `json.Unmarshal` into the address of a `*Client`
  variable holding `p`: the variable afterwards (`none` when it was set to nil, as
  the body `null` does) and whether an error is returned. -/
structure World (σ : Type) where
  now : σ → Time
  parseRFC1123 : String → Option Time
  formEncode : List (String × String) → String
  newRequestFails : String → String → Bool
  send : σ → HttpRequest → Option Response × σ
  jsonClient : String → Option Client → Option Client × Bool

/-- What a run has done so far that can be observed from outside. Printing to
standard output is not recorded. -/
inductive Event where
  | keepAlive
  | login
  | sent (r : HttpRequest)
  deriving DecidableEq, Repr

/-- The server state and the events so far, newest first. -/
structure Sys (σ : Type) where
  world : σ
  trace : List Event := []

/-- Recording an event. -/
def Sys.emit {σ : Type} (s : Sys σ) (e : Event) : Sys σ :=
  { s with trace := e :: s.trace }

/-- The prefix `bytes.TrimPrefix(ioBody, "\xef\xbb\xbf")`: a leading byte order mark
is dropped. -/
def trimBOM (s : String) : String :=
  match s.data with
  | c :: rest => if c = Char.ofNat 0xFEFF then ⟨rest⟩ else s
  | [] => s

/-- The function `unJson`: read the body, drop a byte order mark, unmarshal into
`data`. The result is `data` afterwards and whether an error is returned. -/
def unJson {τ : Type} (unmarshal : String → τ → τ × Bool) (input : Response) (data : τ) :
    τ × Bool :=
  match input.body with
  | none => (data, true)
  | some ioBody => unmarshal (trimBOM ioBody) data

/-- What `Login` leaves: whether the returned pointer is non-nil, the client struct
behind the receiver afterwards, and the system. -/
structure LoginResult (σ : Type) where
  ret : Bool
  client : Client
  sys : Sys σ

/-- The method `Login` (receiver non-nil). -/
def Login {σ : Type} (w : World σ) (cl : Client) (s : Sys σ) : LoginResult σ :=
  let s := s.emit Event.login
  let params := [("grant_type", cl.Grant_Type), ("client_id", cl.ClientID),
    ("username", cl.User)] ++ (if cl.Password ≠ "" then [("password", cl.Password)] else [])
  let body := w.formEncode params
  let url := cl.BaseURI ++ "token?auth_mode=" ++ cl.Auth_mode
  if w.newRequestFails "POST" url then ⟨false, cl, s⟩
  else
    let req : HttpRequest := ⟨"POST", url, body, "application/x-www-form-urlencoded",
      "application/json", ""⟩
    match w.send s.world req with
    | (none, σ') => ⟨false, cl, { s with world := σ' }.emit (Event.sent req)⟩
    | (some resp, σ') =>
      let s := { s with world := σ' }.emit (Event.sent req)
      match unJson w.jsonClient resp (some cl) with
      | (some cl', _) => ⟨true, cl', s⟩
      | (none, _) => ⟨false, cl, s⟩

/-- What `keepAlive` leaves: the returned bool, the client struct afterwards, and
the system. -/
structure KeepAliveResult (σ : Type) where
  ok : Bool
  client : Client
  sys : Sys σ

/-- The method `keepAlive` (receiver non-nil). -/
def keepAlive {σ : Type} (w : World σ) (cl : Client) (s : Sys σ) : KeepAliveResult σ :=
  let s := s.emit Event.keepAlive
  let params := [("grant_type", "refresh_token"), ("client_id", cl.ClientID),
    ("refresh_token", cl.Refresh_token)]
  let body := w.formEncode params
  let url := cl.BaseURI ++ "token"
  if w.newRequestFails "POST" url then ⟨false, cl, s⟩
  else
    let req : HttpRequest := ⟨"POST", url, body, "application/x-www-form-urlencoded",
      "application/json", ""⟩
    match w.send s.world req with
    | (none, σ') => ⟨false, cl, { s with world := σ' }.emit (Event.sent req)⟩
    | (some resp, σ') =>
      let s := { s with world := σ' }.emit (Event.sent req)
      match unJson w.jsonClient resp (some cl) with
      | (p, err) => ⟨!err, p.getD cl, s⟩

/-- How a value of type `ι` is marshalled and a value of type `ω` unmarshalled:
`json.Marshal` (`none` for an error) and `json.Unmarshal` into a pointer to an
`ω` (the value afterwards, and whether an error is returned). -/
structure Codec (ι ω : Type) where
  marshal : ι → Option String
  unmarshal : String → ω → ω × Bool

/-- How a call ends: it returns, or it panics. Both carry the client struct, the
caller's output value and the system as they are at that moment. -/
inductive Outcome (σ ω : Type) where
  | returned (client : Client) (out : ω) (sys : Sys σ)
  | panicked (client : Client) (out : ω) (sys : Sys σ)

/-- The events of a run. -/
def Outcome.trace {σ ω : Type} : Outcome σ ω → List Event
  | .returned _ _ s => s.trace
  | .panicked _ _ s => s.trace

/-- Whether the run returned normally. -/
def Outcome.isReturned {σ ω : Type} : Outcome σ ω → Bool
  | .returned _ _ _ => true
  | .panicked _ _ _ => false

/-- The output value when the run ends. -/
def Outcome.out {σ ω : Type} : Outcome σ ω → ω
  | .returned _ o _ => o
  | .panicked _ o _ => o

/-- The token check at the head of `request`: the local pointer `cl` afterwards
(`false` when `Login` has made it nil), the client struct, and the system. -/
def refreshToken {σ : Type} (w : World σ) (cl : Client) (s : Sys σ) : Bool × Client × Sys σ :=
  if !validateToken w.parseRFC1123 (w.now s.world) cl then
    let k := keepAlive w cl s
    if !k.ok then
      let l := Login w k.client k.sys
      (l.ret, l.client, l.sys)
    else (true, k.client, k.sys)
  else (true, cl, s)

/-- The part of `request` after the request has been built: headers, the call and
the decoding of the response. `ptr` tells whether the local pointer `cl` is
non-nil; reading `cl.Access_token` through a nil pointer panics. -/
def perform {σ ι ω : Type} (w : World σ) (c : Codec ι ω) (ptr : Bool) (cl : Client)
    (method uri body : String) (output : ω) (s : Sys σ) : Outcome σ ω :=
  if !ptr then .panicked cl output s
  else
    let req : HttpRequest := ⟨method, uri, body, "application/json", "application/json",
      "Bearer " ++ cl.Access_token⟩
    match w.send s.world req with
    | (none, σ') => .returned cl output ({ s with world := σ' }.emit (Event.sent req))
    | (some resp, σ') =>
      .returned cl (unJson c.unmarshal resp output).1
        ({ s with world := σ' }.emit (Event.sent req))

/-- The method `request` (receiver non-nil on entry). `input = none` is the nil
interface; `strings.ToUpper` is taken on ASCII letters, which is all the methods at
the call sites contain. -/
def request {σ ι ω : Type} (w : World σ) (c : Codec ι ω) (cl : Client) (method uri : String)
    (input : Option ι) (output : ω) (s : Sys σ) : Outcome σ ω :=
  match refreshToken w cl s with
  | (ptr, cl, s) =>
    match input with
    | none =>
      if !ptr then .panicked cl output s
      else
        let body := w.formEncode [("client_id", cl.ClientID)]
        if w.newRequestFails method.toUpper uri then .returned cl output s
        else perform w c ptr cl method.toUpper uri body output s
    | some i =>
      match c.marshal i with
      | none => .returned cl output s
      | some payload =>
        if w.newRequestFails method.toUpper uri then .returned cl output s
        else perform w c ptr cl method.toUpper uri payload output s

/-- Unmarshalling into a `BusinessObjectRecord`: `FieldValues` is tagged `json:"-"`,
so whatever the decoder `dec` does to the other fields, `FieldValues` stays. -/
def unmarshalRecord (dec : String → BusinessObjectRecord → BusinessObjectRecord × Bool)
    (body : String) (r : BusinessObjectRecord) : BusinessObjectRecord × Bool :=
  ({ (dec body r).1 with FieldValues := r.FieldValues }, (dec body r).2)

/-- How `SaveBusinessObjectRecord` ends: the returned pointer (`none` for nil), the
caller's record afterwards, and how the request ended if one was made. -/
structure SaveResult (σ : Type) where
  ret : Option BusinessObjectRecord
  record : Option BusinessObjectRecord
  sent : Option BusinessObjectRecord
  panicked : Bool
  client : Client
  sys : Sys σ

/-- The method `SaveBusinessObjectRecord`; `rec = none` is the nil receiver, `enc`
and `dec` are `json.Marshal` and `json.Unmarshal` for records. `sent` is the record
handed to `request`. -/
def SaveBusinessObjectRecord {σ : Type} (w : World σ)
    (enc : BusinessObjectRecord → Option String)
    (dec : String → BusinessObjectRecord → BusinessObjectRecord × Bool)
    (rec : Option BusinessObjectRecord) (cl : Client) (s : Sys σ) : SaveResult σ :=
  match rec with
  | none => ⟨none, none, none, false, cl, s⟩
  | some rec =>
    let saveResp : BusinessObjectRecord := {}
    let uri := cl.BaseURI ++ saveBusObRecURI
    let r := { rec with Persist := true }
    let r := { r with Fields := syncFields r.FieldValues r.Fields }
    match request w ⟨enc, unmarshalRecord dec⟩ cl "post" uri (some r) saveResp s with
    | .returned cl' out s' => ⟨some out, some r, some r, false, cl', s'⟩
    | .panicked cl' _ s' => ⟨none, some r, some r, true, cl', s'⟩

/-- What the loop of `SaveBusinessObjectRecord` does to one field: a field whose
`Value` differs from `FieldValues[DisplayName]` takes the rendering of that entry
and is marked dirty. -/
def syncField (fv : GoMap Iface) (f : Field) : Field :=
  if Iface.str f.Value ≠ fv.index f.DisplayName then
    { f with Value := Sprint (fv.index f.DisplayName), Dirty := true }
  else f

/-- A record with two fields of the same display name. -/
def sampleRecord : BusinessObjectRecord :=
  { BusObID := "b1", BusObRecID := "r1",
    Fields := [{ DisplayName := "Status", Value := "New", FieldID := "f1" },
               { DisplayName := "Status", Value := "Closed", FieldID := "f2" }] }

/-- The map `val` that `LinkBusinessObjectRecord` and `UnlinkBusinessObjectRecord`
build: parent ids, relationship id, child ids. -/
def linkValues (p r rel c cr : String) : GoMap String :=
  ((((GoMap.empty.insert "busobid" p).insert "busobrecid" r).insert "relationshipid" rel).insert
    "childbusobid" c).insert "childbusobrecid" cr

/-- The placeholder characters of the link template (all but the star). -/
def linkPlaceholders : List Char := ['$', '#', '?', '&', '+']

/-- None of the placeholder characters of the link template occurs in `s`. -/
def linkPlaceholderFree (s : String) : Prop := ∀ c ∈ s.data, c ∉ linkPlaceholders

instance (s : String) : Decidable (linkPlaceholderFree s) := by
  unfold linkPlaceholderFree; infer_instance

/-- The URI the link call is meant to reach: the template with every placeholder
filled by the value of its own key. -/
def linkURI (b p r rel c cr : String) : String :=
  b ++ "api/V2/linkrelatedbusinessobject/parentbusobid/" ++ p ++ "/parentbusobrecid/" ++ r
    ++ "/relationshipid/" ++ rel ++ "/busobid/" ++ c ++ "/busobrecid/" ++ cr

/-! ## Business objects, templates, searches and schemas -/

/-- The struct `BusinessObject`. -/
structure BusinessObject where
  BusObID : String := ""
  Name : String := ""
  DisplayName : String := ""
  FirstRecIdField : String := ""
  GroupSummaries : List BusinessObject := []
  RecIdFields : String := ""
  StateFieldId : String := ""
  States : String := ""
  Group : Bool := false
  Lookup : Bool := false
  Major : Bool := false
  Supporting : Bool := false

/-- The struct `BusinessObjectTemplate`. -/
structure BusinessObjectTemplate where
  Error : Error := {}
  Fields : List Field := []

/-- The struct `Filter`. -/
structure Filter where
  FieldID : String := ""
  FieldName : String := ""
  Operator : String := ""
  Value : String := ""
  deriving DecidableEq, Repr

/-- An element of `Search.PromptValues`. -/
structure PromptValue where
  BusObID : String := ""
  CollectionStoreEntireRow : String := ""
  CollectionValueField : String := ""
  FieldID : String := ""
  ListReturnFieldID : String := ""
  PromptID : String := ""
  Value : Unit := ()
  ValueIsRecID : Bool := false
  deriving DecidableEq, Repr

/-- An element of `Search.Sorting`. -/
structure Sorting where
  FieldID : String := ""
  SortDirection : Int := 0
  deriving DecidableEq, Repr

/-- The struct `Search`. -/
structure Search where
  Association : String := ""
  BusObID : String := ""
  CustomGridDefID : String := ""
  DateTimeFormatting : String := ""
  FieldID : String := ""
  Fields : List String := []
  Filters : List Filter := []
  IncludeAllFields : Bool := false
  IncludeSchema : Bool := false
  PageNumber : Int := 0
  PageSize : Int := 0
  PromptValues : List PromptValue := []
  Scope : String := ""
  ScopeOwner : String := ""
  SearchID : String := ""
  SearchName : String := ""
  SearchText : String := ""
  Sorting : List Sorting := []
  deriving DecidableEq, Repr

/-- An element of `SearchResult.Prompts`. -/
structure Prompt where
  AllowValuesOnly : Bool := false
  BusObID : String := ""
  CollectionStoreEntireRow : String := ""
  CollectionValueField : String := ""
  ConstraintXML : String := ""
  Contents : String := ""
  Default : String := ""
  FieldID : String := ""
  IsDateRange : Bool := false
  ListDisplayOption : String := ""
  ListReturnFieldID : String := ""
  MultiLine : Bool := false
  PromptID : String := ""
  PromptType : String := ""
  PromptTypeName : String := ""
  Required : Bool := false
  Text : String := ""
  Value : Unit := ()
  Values : List String := []

/-- An element of `SearchResult.SearchResultsFields`. -/
structure SearchResultsField where
  Caption : String := ""
  CurrencyCulture : String := ""
  CurrencySymbol : String := ""
  DecimalDigits : Int := 0
  DefaultSortOrderAscending : Bool := false
  DisplayName : String := ""
  FieldID : String := ""
  FieldName : String := ""
  FullFieldID : String := ""
  HasDefaultSortField : Bool := false
  IsBinary : Bool := false
  IsCurrency : Bool := false
  IsDateTime : Bool := false
  IsFilterAllowed : Bool := false
  IsLogical : Bool := false
  IsNumber : Bool := false
  IsShortDate : Bool := false
  IsShortTime : Bool := false
  IsVisible : Bool := false
  SortOrder : String := ""
  Sortable : Bool := false
  StorageName : String := ""
  WholeDigits : Int := 0

/-- The struct `SimpleResultsListItem`. -/
structure SimpleResultsListItem where
  BusinessObjectRecord : BusinessObjectRecord := {}
  DocRepositoryItemID : String := ""
  GalleryImage : String := ""
  PublicID : String := ""
  Scope : String := ""
  ScopeOwner : String := ""
  SubTitle : String := ""
  Text : String := ""
  Title : String := ""

/-- An element of `SearchResult.SimpleResults.Groups`. -/
structure SimpleResultsGroup where
  Error : Error := {}
  IsBusObTarget : Bool := false
  SimpleResultsListItems : List SimpleResultsListItem := []
  SubTitle : String := ""
  TargetID : String := ""
  Title : String := ""

/-- The field `SearchResult.SimpleResults`. -/
structure SimpleResults where
  Error : Error := {}
  Groups : List SimpleResultsGroup := []
  Title : String := ""

/-- The struct `SearchResult`. -/
structure SearchResult where
  BusinessObjects : List BusinessObjectRecord := []
  Error : Error := {}
  HasPrompts : Bool := false
  Links : List Link := []
  Prompts : List Prompt := []
  SearchResultsFields : List SearchResultsField := []
  SimpleResults : SimpleResults := {}
  TotalRows : Int := 0

/-- An element of `FieldDefinitions` in a schema (`Type_` is the field `Type`). -/
structure FieldDefinition where
  AutoFill : Bool := false
  Calculated : Bool := false
  Category : String := ""
  DecimalDigits : Int := 0
  Description : String := ""
  Details : String := ""
  DisplayName : String := ""
  Enabled : Bool := false
  FieldID : String := ""
  HasDate : Bool := false
  HasTime : Bool := false
  IsFullTextSearchable : Bool := false
  MaximumSize : String := ""
  Name : String := ""
  ReadOnly : Bool := false
  Required : Bool := false
  Type_ : String := ""
  TypeLocalized : String := ""
  Validated : Bool := false
  WholeDigits : Int := 0
  deriving DecidableEq, Repr

/-- An element of `BusinessObjectSchema.GridDefinitions`. -/
structure GridDefinition where
  DisplayName : String := ""
  GridID : String := ""
  Name : String := ""
  deriving DecidableEq, Repr

/-- An element of `BusinessObjectSchema.Relationships`. -/
structure Relationship where
  Cardinality : String := ""
  Description : String := ""
  DisplayName : String := ""
  FieldDefinitions : List FieldDefinition := []
  RelationshipID : String := ""
  Target : String := ""
  deriving DecidableEq, Repr

/-- The struct `BusinessObjectSchema`. -/
structure BusinessObjectSchema where
  BusObID : String := ""
  Error : Error := {}
  FieldDefinitions : List FieldDefinition := []
  FirstRecIDField : String := ""
  GridDefinitions : List GridDefinition := []
  HTTPStatusCode : String := ""
  Name : String := ""
  RecIDFields : String := ""
  Relationships : List Relationship := []
  StateFieldID : String := ""
  States : String := ""
  deriving DecidableEq, Repr

/-- The anonymous query struct of `GetBusinessObjectTemplate`. -/
structure TemplateQuery where
  BusObID : String
  IncludeAll : Bool
  IncludeRequired : Bool
  deriving DecidableEq, Repr

/-- The behaviour of `encoding/json` at the types the client uses: `json.Marshal`
of the request payloads (`none` for an error) and `json.Unmarshal` into the
response types (the target afterwards, and whether an error is returned). -/
structure Json where
  encTemplateQuery : TemplateQuery → Option String
  encSearch : Search → Option String
  encRecord : BusinessObjectRecord → Option String
  decSummaries : String → List BusinessObject → List BusinessObject × Bool
  decTemplate : String → BusinessObjectTemplate → BusinessObjectTemplate × Bool
  decSearchResult : String → SearchResult → SearchResult × Bool
  decSchema : String → BusinessObjectSchema → BusinessObjectSchema × Bool
  decRecord : String → BusinessObjectRecord → BusinessObjectRecord × Bool
  decError : String → Error → Error × Bool

/-- The codec of a call with a nil input: nothing is marshalled. -/
def decoding {ω : Type} (dec : String → ω → ω × Bool) : Codec Unit ω :=
  ⟨fun _ => none, dec⟩

/-! ## Looking up business objects -/

/-- The inner loop `for _, c := range b.GroupSummaries` of
`GetBusinessObjectByDisplayName`. -/
def findGroupByDisplayName (displayName : String) : List BusinessObject → Option BusinessObject
  | [] => none
  | c :: cs => if c.DisplayName = displayName then some c
               else findGroupByDisplayName displayName cs

/-- The loop `for _, b := range res` of `GetBusinessObjectByDisplayName`; `none` is
the final `return nil`. -/
def findByDisplayName (displayName : String) : List BusinessObject → Option BusinessObject
  | [] => none
  | b :: bs =>
    if b.DisplayName = displayName then some b
    else match findGroupByDisplayName displayName b.GroupSummaries with
      | some c => some c
      | none => findByDisplayName displayName bs

/-- The method `GetBusinessObjectByDisplayName`. -/
def GetBusinessObjectByDisplayName {σ : Type} (w : World σ) (j : Json) (cl : Client)
    (displayName : String) (s : Sys σ) : Outcome σ (Option BusinessObject) :=
  let uri := cl.BaseURI ++ getBusObSummariesAllURI
  match request w (decoding j.decSummaries) cl "get" uri none [] s with
  | .returned cl' res s' => .returned cl' (findByDisplayName displayName res) s'
  | .panicked cl' _ s' => .panicked cl' none s'

/-- The inner loop `for _, c := range b.GroupSummaries` of
`GetBusinessObjectByBusObID`. -/
def findGroupByBusObID (busObID : String) : List BusinessObject → Option BusinessObject
  | [] => none
  | c :: cs => if c.BusObID = busObID then some c else findGroupByBusObID busObID cs

/-- The loop `for _, b := range res` of `GetBusinessObjectByBusObID`. -/
def findByBusObID (busObID : String) : List BusinessObject → Option BusinessObject
  | [] => none
  | b :: bs =>
    if b.BusObID = busObID then some b
    else match findGroupByBusObID busObID b.GroupSummaries with
      | some c => some c
      | none => findByBusObID busObID bs

/-- The method `GetBusinessObjectByBusObID`. -/
def GetBusinessObjectByBusObID {σ : Type} (w : World σ) (j : Json) (cl : Client)
    (busObID : String) (s : Sys σ) : Outcome σ (Option BusinessObject) :=
  let uri := cl.BaseURI ++ getBusObSummariesAllURI
  let val : GoMap String := GoMap.empty.insert "busobid" busObID
  let uri := formatURI uri val
  match request w (decoding j.decSummaries) cl "GET" uri none [] s with
  | .returned cl' res s' => .returned cl' (findByBusObID busObID res) s'
  | .panicked cl' _ s' => .panicked cl' none s'

/-- The traversal order of the two lookups: each top-level summary, followed by its
own group summaries. -/
def traversal (res : List BusinessObject) : List BusinessObject :=
  res.flatMap (fun b => b :: b.GroupSummaries)

/-! ## Templates and searches -/

/-- The method `GetBusinessObjectTemplate`; `bo = none` is the nil receiver. -/
def GetBusinessObjectTemplate {σ : Type} (w : World σ) (j : Json)
    (bo : Option BusinessObject) (cl : Client) (s : Sys σ) :
    Outcome σ (Option BusinessObjectTemplate) :=
  match bo with
  | none => .returned cl none s
  | some bo =>
    let res : BusinessObjectTemplate := {}
    let uri := cl.BaseURI ++ getBusObTemplateURI
    let query : TemplateQuery := ⟨bo.BusObID, true, true⟩
    match request w ⟨j.encTemplateQuery, j.decTemplate⟩ cl "POST" uri (some query) res s with
    | .returned cl' res s' => .returned cl' (some res) s'
    | .panicked cl' _ s' => .panicked cl' none s'

/-- The inner loop `for _, fi := range filters` of the two search methods for the
template field `f`: `none` is the `return nil` on a filter whose length is not 3,
otherwise the filter list `filter` after the loop. -/
def filterLoop (f : Field) : List (List String) → List Filter → Option (List Filter)
  | [], filter => some filter
  | fi :: rest, filter =>
    match fi with
    | [name, op, value] =>
      if f.DisplayName = name then
        filterLoop f rest (filter ++ [{ FieldID := f.FieldID, Operator := op, Value := value }])
      else filterLoop f rest filter
    | _ => none

/-- The outer loop `for _, f := range fields.Fields` of the two search methods. -/
def fieldLoop (filters : List (List String)) : List Field → List Filter → Option (List Filter)
  | [], filter => some filter
  | f :: fs, filter =>
    match filterLoop f filters filter with
    | none => none
    | some filter => fieldLoop filters fs filter

/-- The query of the two search methods. -/
def searchQuery (bo : BusinessObject) (filter : List Filter) : Search :=
  { BusObID := bo.BusObID, Filters := filter, IncludeAllFields := true }

/-- The end of `SearchBusinessObjectRecord`, after the search request:
`res.BusinessObjects[0].processFields()`, which panics on an empty list. -/
def firstRecord {σ : Type} : Outcome σ SearchResult → Outcome σ (Option BusinessObjectRecord)
  | .returned cl res s =>
    match res.BusinessObjects with
    | [] => .panicked cl none s
    | r :: _ => .returned cl (some (processFields r)) s
  | .panicked cl _ s => .panicked cl none s

/-- The method `SearchBusinessObjectRecord`; `bo = none` is the nil receiver and
`filters` the variadic argument. -/
def SearchBusinessObjectRecord {σ : Type} (w : World σ) (j : Json)
    (bo : Option BusinessObject) (cl : Client) (filters : List (List String)) (s : Sys σ) :
    Outcome σ (Option BusinessObjectRecord) :=
  match bo with
  | none => .returned cl none s
  | some b =>
    let res : SearchResult := {}
    let uri := cl.BaseURI ++ getSearchResultsURI
    match GetBusinessObjectTemplate w j (some b) cl s with
    | .panicked cl' _ s' => .panicked cl' none s'
    | .returned cl' none s' => .panicked cl' none s'
    | .returned cl' (some fields) s' =>
      match fieldLoop filters fields.Fields [] with
      | none => .returned cl' none s'
      | some filter =>
        firstRecord
          (request w ⟨j.encSearch, j.decSearchResult⟩ cl' "POST" uri
            (some (searchQuery b filter)) res s')

/-- The loop `for _, r := range res.BusinessObjects` of
`SearchMultipleBusinessObjectRecords`. -/
def collectRecords (rs : List BusinessObjectRecord) : List BusinessObjectRecord :=
  rs.foldl (fun records r => records ++ [processFields r]) []

/-- The end of `SearchMultipleBusinessObjectRecords`, after the search request. -/
def allRecords {σ : Type} :
    Outcome σ SearchResult → Outcome σ (Option (List BusinessObjectRecord))
  | .returned cl res s => .returned cl (some (collectRecords res.BusinessObjects)) s
  | .panicked cl _ s => .panicked cl none s

/-- The method `SearchMultipleBusinessObjectRecords`. -/
def SearchMultipleBusinessObjectRecords {σ : Type} (w : World σ) (j : Json)
    (bo : Option BusinessObject) (cl : Client) (filters : List (List String)) (s : Sys σ) :
    Outcome σ (Option (List BusinessObjectRecord)) :=
  match bo with
  | none => .returned cl none s
  | some b =>
    let res : SearchResult := {}
    let uri := cl.BaseURI ++ getSearchResultsURI
    match GetBusinessObjectTemplate w j (some b) cl s with
    | .panicked cl' _ s' => .panicked cl' none s'
    | .returned cl' none s' => .panicked cl' none s'
    | .returned cl' (some fields) s' =>
      match fieldLoop filters fields.Fields [] with
      | none => .returned cl' none s'
      | some filter =>
        allRecords
          (request w ⟨j.encSearch, j.decSearchResult⟩ cl' "POST" uri
            (some (searchQuery b filter)) res s')

/-- The filter list the claim describes: for each template field in order, for each
triple `[name, op, value]` in argument order whose name is the field's display
name, the filter of the field's id, the operator and the value. -/
def expectedFilters (fields : List Field) (filters : List (List String)) : List Filter :=
  fields.flatMap (fun f =>
    filters.filterMap (fun fi =>
      match fi with
      | [name, op, value] =>
        if f.DisplayName = name then
          some { FieldID := f.FieldID, Operator := op, Value := value }
        else none
      | _ => none))

/-! ## Records by id, schemas and links -/

/-- The map `val` of `GetBusinessObjectRecordByRecID`. -/
def recIDValues (busObID recID : String) : GoMap String :=
  (GoMap.empty.insert "busobid" busObID).insert "busobrecid" recID

/-- The method `GetBusinessObjectRecordByRecID`; `bo = none` is the nil receiver. -/
def GetBusinessObjectRecordByRecID {σ : Type} (w : World σ) (j : Json)
    (bo : Option BusinessObject) (cl : Client) (recID : String) (s : Sys σ) :
    Outcome σ (Option BusinessObjectRecord) :=
  match bo with
  | none => .returned cl none s
  | some bo =>
    let res : BusinessObjectRecord := {}
    let uri := cl.BaseURI ++ getBusObRecByRecIdURI
    let uri := formatURI uri (recIDValues bo.BusObID recID)
    match request w (decoding (unmarshalRecord j.decRecord)) cl "GET" uri none res s with
    | .returned cl' res s' => .returned cl' (some (processFields res)) s'
    | .panicked cl' _ s' => .panicked cl' none s'

/-- The method `GetBusinessObjectSchema`; `bo = none` is the nil receiver. -/
def GetBusinessObjectSchema {σ : Type} (w : World σ) (j : Json)
    (bo : Option BusinessObject) (cl : Client) (s : Sys σ) :
    Outcome σ (Option BusinessObjectSchema) :=
  match bo with
  | none => .returned cl none s
  | some bo =>
    let schema : BusinessObjectSchema := {}
    let uri := cl.BaseURI ++ Replace1 getBusObSchemaURI "$" bo.BusObID
    match request w (decoding j.decSchema) cl "GET" uri none schema s with
    | .returned cl' schema s' => .returned cl' (some schema) s'
    | .panicked cl' _ s' => .panicked cl' none s'

/-- The loop of `GetRelationshipID`: the id of the first relationship with the
display name, the zero value of `relID` when there is none. -/
def findRelationshipID (relationshipName : String) : List Relationship → String
  | [] => ""
  | r :: rs =>
    if r.DisplayName = relationshipName then r.RelationshipID
    else findRelationshipID relationshipName rs

/-- The method `GetRelationshipID`; `sch = none` is the nil receiver. -/
def GetRelationshipID (sch : Option BusinessObjectSchema) (relationshipName : String) : String :=
  match sch with
  | none => ""
  | some sch => findRelationshipID relationshipName sch.Relationships

/-- The common body of `LinkBusinessObjectRecord` and `UnlinkBusinessObjectRecord`,
which differ in the URI template and the method only. `rec = none` and
`childRec = none` are nil pointers; reading `childRec.BusObID` through a nil
pointer panics. -/
def linkCall {σ : Type} (w : World σ) (j : Json) (template method : String)
    (rec : Option BusinessObjectRecord) (cl : Client) (childRec : Option BusinessObjectRecord)
    (relationshipName : String) (s : Sys σ) : Outcome σ (Option Error) :=
  match rec with
  | none => .returned cl none s
  | some rec =>
    let res : Error := {}
    match GetBusinessObjectByBusObID w j cl rec.BusObID s with
    | .panicked cl1 _ s1 => .panicked cl1 none s1
    | .returned cl1 none s1 => .returned cl1 none s1
    | .returned cl1 (some busOb) s1 =>
      match GetBusinessObjectSchema w j (some busOb) cl1 s1 with
      | .panicked cl2 _ s2 => .panicked cl2 none s2
      | .returned cl2 none s2 => .returned cl2 none s2
      | .returned cl2 (some sch) s2 =>
        let relID := GetRelationshipID (some sch) relationshipName
        let uri := cl2.BaseURI ++ template
        match childRec with
        | none => .panicked cl2 none s2
        | some child =>
          let val := linkValues rec.BusObID rec.BusObRecID relID child.BusObID child.BusObRecID
          let uri := formatURI uri val
          match request w (decoding j.decError) cl2 method uri none res s2 with
          | .returned cl3 res s3 => .returned cl3 (some res) s3
          | .panicked cl3 _ s3 => .panicked cl3 none s3

/-- The method `LinkBusinessObjectRecord`. -/
def LinkBusinessObjectRecord {σ : Type} (w : World σ) (j : Json)
    (rec : Option BusinessObjectRecord) (cl : Client) (childRec : Option BusinessObjectRecord)
    (relationshipName : String) (s : Sys σ) : Outcome σ (Option Error) :=
  linkCall w j linkBusObRecURI "GET" rec cl childRec relationshipName s

/-- The method `UnlinkBusinessObjectRecord`. -/
def UnlinkBusinessObjectRecord {σ : Type} (w : World σ) (j : Json)
    (rec : Option BusinessObjectRecord) (cl : Client) (childRec : Option BusinessObjectRecord)
    (relationshipName : String) (s : Sys σ) : Outcome σ (Option Error) :=
  linkCall w j unlinkBusObRecURI "DELETE" rec cl childRec relationshipName s

/-- The requests of a trace that went to a URL ending in `suffix`. -/
def sentTo (suffix : String) (trace : List Event) : List HttpRequest :=
  trace.filterMap (fun e =>
    match e with
    | .sent r => if suffix.data.isSuffixOf r.url.data then some r else none
    | _ => none)

/-! ## The legacy client (`go-cherwell.go`) -/

/-- The legacy struct `Error`. -/
structure Legacy.Error where
  ErrorCode : String := ""
  ErrorMessage : String := ""
  HasError : Bool := false
  deriving DecidableEq, Repr

/-- The legacy struct `Field`. -/
structure Legacy.Field where
  Dirty : Bool := false
  DisplayName : String := ""
  Html : String := ""
  Name : String := ""
  Value : String := ""
  FieldID : String := ""
  deriving DecidableEq, Repr

/-- The legacy struct `ObRec`. -/
structure Legacy.ObRec where
  BusObID : String := ""
  BusObRecID : String := ""
  BusObPublicID : String := ""
  CacheKey : String := ""
  CacheScope : String := ""
  Fields : List Legacy.Field := []
  Persist : Bool := false
  FieldValidationErrors : List Iface := []
  Error : Legacy.Error := {}
  NotificationTriggers : List Iface := []
  Links : List Link := []
  deriving DecidableEq, Repr

/-- The legacy constant `getBusObRecByRecIdURI`. -/
def Legacy.getBusObRecByRecIdURI : String := "api/v1/getbusinessobject/busobid/$/busobrecid/#"

/-- The line `uri := ...` of the legacy `GetObRecByRecID`. -/
def Legacy.recByRecIDURI (a : Client) (boid rid : String) : String :=
  a.BaseURI ++ Replace1 Legacy.getBusObRecByRecIdURI "$" boid
    ++ Replace1 Legacy.getBusObRecByRecIdURI "#" rid

/-- The legacy method `GetObRecByRecID`: the record, whether an error is returned,
and the system. -/
def Legacy.GetObRecByRecID {σ : Type} (w : World σ)
    (dec : String → Legacy.ObRec → Legacy.ObRec × Bool) (a : Client) (boid rid : String)
    (s : Sys σ) : (Legacy.ObRec × Bool) × Sys σ :=
  let rec_ : Legacy.ObRec := {}
  let body := w.formEncode [("client_id", a.ClientID)]
  let uri := Legacy.recByRecIDURI a boid rid
  if w.newRequestFails "GET" uri then ((rec_, true), s)
  else
    let req : HttpRequest := ⟨"GET", uri, body, "application/json", "application/json",
      "Bearer " ++ a.Access_token⟩
    match w.send s.world req with
    | (none, σ') => ((rec_, true), { s with world := σ' }.emit (Event.sent req))
    | (some resp, σ') => (unJson dec resp rec_, { s with world := σ' }.emit (Event.sent req))

/-- The URI the claim expects for a record by id. -/
def recordURI (baseURI boid rid : String) : String :=
  baseURI ++ "api/v1/getbusinessobject/busobid/" ++ boid ++ "/busobrecid/" ++ rid

/-! ## Simultaneous substitution and the order of the replacements -/

/-- What stands for the character `c` of the URI in the simultaneous substitution of
the tokens `T`: the value of its key when `c` is a token of `T` that has not
occurred before (`seen`) and whose key is in the map, the character itself
otherwise. -/
def substPiece (values : GoMap String) (T seen : List Char) (c : Char) : List Char :=
  if c ∈ T ∧ c ∉ seen then
    match keyOf c with
    | some k =>
      match values k with
      | some v => v.data
      | none => [c]
    | none => [c]
  else [c]

/-- The simultaneous substitution of the first occurrence of each token of `T` whose
key is in the map, walking the original URI from the left. -/
def simSubst (values : GoMap String) (T : List Char) : List Char → List Char → List Char
  | _, [] => []
  | seen, c :: us => substPiece values T seen c ++ simSubst values T (c :: seen) us

/-- The guarded replacements of `formatURI` applied in the order of the tokens in
`order` instead of the order of the source. -/
def formatWith (order : List Char) (uri : String) (values : GoMap String) : String :=
  order.foldl (fun u t =>
    match keyOf t with
    | some k => substKey values k ⟨[t]⟩ u
    | none => u) uri

/-- The order in which `formatURI` treats the tokens. -/
def sourceOrder : List Char := ['$', '#', '*', '&', '+', '?']

/-- The map `val` of `GetBusinessObjectRecordByRecID` for a business-object id that
contains the placeholder of the record id. -/
def clashValues : GoMap String := recIDValues "a#b" "r1"

/-! ## Sample worlds, for evaluating the code on concrete inputs -/

/-- The timestamp used in the samples. -/
def sampleExpires : String := "Mon, 02 Jan 2006 15:04:05 UTC"

/-- The instant `sampleExpires` denotes, in seconds since the Unix epoch. -/
def sampleExpiry : Time := ⟨1136214245, 0⟩

/-- A stand-in for `time.Parse(time.RFC1123, ·)` that knows one timestamp and
rejects everything else, the empty string included. -/
def sampleParse (s : String) : Option Time :=
  if s = sampleExpires then some sampleExpiry else none

/-- A stand-in for `url.Values.Encode` on parameters free of reserved characters. -/
def sampleFormEncode (params : List (String × String)) : String :=
  "&".intercalate (params.map (fun kv => kv.1 ++ "=" ++ kv.2))

/-- A token response whose `expires_in` is a string where the struct has an int. -/
def badTokenBody : String := "\x7b\"access_token\":\"abc\",\"expires_in\":\"soon\"\x7d"

/-- A stand-in for `json.Unmarshal` into a `*Client` variable on three bodies:
`null` sets the variable to nil without an error, `badTokenBody` stores
`access_token` and reports the type error of `expires_in`, and anything else is
taken to be no JSON at all, which leaves the target alone and is an error. -/
def sampleJsonClient (body : String) (p : Option Client) : Option Client × Bool :=
  if body = "null" then (none, false)
  else if body = badTokenBody then
    (p.map (fun c => { c with Access_token := "abc" }), true)
  else (p, true)

/-- A world whose server cannot be reached: every call fails in the transport. The
clock stands ten minutes before `sampleExpiry`. -/
def offlineWorld : World Unit where
  now := fun _ => ⟨1136213645, 0⟩
  parseRFC1123 := sampleParse
  formEncode := sampleFormEncode
  newRequestFails := fun _ _ => false
  send := fun s _ => (none, s)
  jsonClient := sampleJsonClient

/-- A world whose server answers every call with the body `body`. -/
def answeringWorld (body : String) : World Unit where
  now := fun _ => ⟨1136213645, 0⟩
  parseRFC1123 := sampleParse
  formEncode := sampleFormEncode
  newRequestFails := fun _ _ => false
  send := fun s _ => (some ⟨some body⟩, s)
  jsonClient := sampleJsonClient

/-- A codec for calls whose input and output carry nothing. -/
def unitCodec : Codec Unit Unit where
  marshal := fun _ => some "null"
  unmarshal := fun _ o => (o, false)

/-- A client as `NewClient` makes it. -/
def freshClient : Client :=
  NewClient "user" "secret" "client-id" "https://host/CherwellAPI/" "Internal" "password"

/-- A client holding a token that expires at `sampleExpiry`. -/
def loggedInClient : Client :=
  { freshClient with Expires := sampleExpires, Access_token := "tok", Refresh_token := "ref" }

/-- The initial system of the samples. -/
def sys0 : Sys Unit := ⟨(), []⟩

/-- A save response that carries a field. -/
def saveResponseBody : String :=
  "\x7b\"busObRecId\":\"r1\",\"fields\":[\x7b\"displayName\":\"Status\",\"value\":\"Done\"\x7d]\x7d"

/-- A stand-in for `json.Unmarshal` into a record on one body: `saveResponseBody`
fills `BusObRecID` and `Fields`; anything else is taken to be no JSON at all. -/
def sampleDecodeRecord (body : String) (r : BusinessObjectRecord) :
    BusinessObjectRecord × Bool :=
  if body = saveResponseBody then
    ({ r with BusObRecID := "r1", Fields := [{ DisplayName := "Status", Value := "Done" }] },
      false)
  else (r, true)

/-- A stand-in for `json.Marshal` of a record, of which the sample server takes no
notice. -/
def sampleEncodeRecord (_r : BusinessObjectRecord) : Option String := some "\x7b\x7d"

/-- A world whose server answers by URL: a call to a URL of `routes` gets the body
listed for it, any other call fails in the transport. -/
def routedWorld (routes : List (String × String)) : World Unit where
  now := fun _ => ⟨1136213645, 0⟩
  parseRFC1123 := sampleParse
  formEncode := sampleFormEncode
  newRequestFails := fun _ _ => false
  send := fun s req =>
    match routes.lookup req.url with
    | some body => (some ⟨some body⟩, s)
    | none => (none, s)
  jsonClient := sampleJsonClient

/-- A member of the group `Configuration Item`. -/
def sampleGroupMember : BusinessObject :=
  { BusObID := "b3", Name := "ConfigServer", DisplayName := "Server", GroupSummaries := [] }

/-- The summaries of the sample server: one plain object and one group. -/
def sampleSummaries : List BusinessObject :=
  [{ BusObID := "b1", Name := "Incident", DisplayName := "Incident", Major := true,
     GroupSummaries := [] },
   { BusObID := "b2", Name := "Config", DisplayName := "Configuration Item", Group := true,
     GroupSummaries := [sampleGroupMember] }]

/-- The body standing for `sampleSummaries`. -/
def summariesBody : String := "[summaries]"

/-- The body of a template with the single field `Status`. -/
def templateBody : String :=
  "\x7b\"fields\":[\x7b\"displayName\":\"Status\",\"fieldId\":\"f1\"\x7d]\x7d"

/-- The body of a template without fields. -/
def emptyTemplateBody : String := "\x7b\"fields\":[]\x7d"

/-- The body of a search that found one record. -/
def oneRecordBody : String :=
  "\x7b\"businessObjects\":[\x7b\"busObRecId\":\"r1\",\"fields\":[\x7b\"displayName\":\"Status\",\"value\":\"Done\"\x7d]\x7d],\"totalRows\":1\x7d"

/-- The body of a search that found nothing. -/
def noRecordBody : String := "\x7b\"businessObjects\":[],\"totalRows\":0\x7d"

/-- The body of a schema with one relationship. -/
def schemaBody : String :=
  "\x7b\"busObId\":\"b1\",\"relationships\":[\x7b\"displayName\":\"Tasks\",\"relationshipId\":\"rel1\"\x7d]\x7d"

/-- A stand-in for `encoding/json` on the sample bodies; any other body is taken to
be no JSON at all, which leaves the target alone and is an error. -/
def sampleJson : Json where
  encTemplateQuery := fun q =>
    some ("\x7b\"busObId\":\"" ++ q.BusObID ++ "\",\"includeAll\":true,\"includeRequired\":true\x7d")
  encSearch := fun q => some ("\x7b\"busObId\":\"" ++ q.BusObID ++ "\"\x7d")
  encRecord := sampleEncodeRecord
  decSummaries := fun body res =>
    if body = summariesBody then (sampleSummaries, false) else (res, true)
  decTemplate := fun body res =>
    if body = templateBody then
      ({ res with Fields := [{ DisplayName := "Status", FieldID := "f1" }] }, false)
    else if body = emptyTemplateBody then ({ res with Fields := [] }, false)
    else (res, true)
  decSearchResult := fun body res =>
    if body = oneRecordBody then
      ({ res with
          BusinessObjects :=
            [{ BusObRecID := "r1", Fields := [{ DisplayName := "Status", Value := "Done" }] }],
          TotalRows := 1 }, false)
    else if body = noRecordBody then ({ res with BusinessObjects := [], TotalRows := 0 }, false)
    else (res, true)
  decSchema := fun body res =>
    if body = schemaBody then
      ({ res with
          BusObID := "b1",
          Relationships := [{ DisplayName := "Tasks", RelationshipID := "rel1" }] }, false)
    else (res, true)
  decRecord := sampleDecodeRecord
  decError := fun body res =>
    if body = "\x7b\x7d" then (res, false) else (res, true)

/-- The base URI of the sample clients. -/
def sampleBase : String := "https://host/CherwellAPI/"

/-- A server that lists `sampleSummaries`. -/
def summariesWorld : World Unit :=
  routedWorld [(sampleBase ++ getBusObSummariesAllURI, summariesBody)]

/-- A business object of the sample server. -/
def incident : BusinessObject :=
  { BusObID := "b1", Name := "Incident", DisplayName := "Incident", Major := true,
    GroupSummaries := [] }

/-- A server with a one-field template whose search finds one record. -/
def searchWorld : World Unit :=
  routedWorld [(sampleBase ++ getBusObTemplateURI, templateBody),
    (sampleBase ++ getSearchResultsURI, oneRecordBody)]

/-- A server whose template has no fields; its search finds one record. -/
def emptyTemplateWorld : World Unit :=
  routedWorld [(sampleBase ++ getBusObTemplateURI, emptyTemplateBody),
    (sampleBase ++ getSearchResultsURI, oneRecordBody)]

/-- A server with a one-field template whose search finds nothing. -/
def noRecordWorld : World Unit :=
  routedWorld [(sampleBase ++ getBusObTemplateURI, templateBody),
    (sampleBase ++ getSearchResultsURI, noRecordBody)]

/-- A server that lists the summaries, has a schema for `b1` and accepts the link of
`r1` to `r2`. -/
def linkWorld : World Unit :=
  routedWorld [(sampleBase ++ getBusObSummariesAllURI, summariesBody),
    (sampleBase ++ "api/v1/getbusinessobjectschema/busobid/b1?includerelationships=true",
      schemaBody),
    (linkURI sampleBase "b1" "r1" "rel1" "b1" "r2", "\x7b\x7d")]

/-- A server that answers the first call with the summaries and cannot be reached
afterwards, while the clock moves from ten minutes to one minute before
`sampleExpiry`. The state counts the calls. -/
def droppingWorld : World Nat where
  now := fun n => if n = 0 then ⟨1136213645, 0⟩ else ⟨1136214185, 0⟩
  parseRFC1123 := sampleParse
  formEncode := sampleFormEncode
  newRequestFails := fun _ _ => false
  send := fun n _ => if n = 0 then (some ⟨some summariesBody⟩, 1) else (none, n + 1)
  jsonClient := sampleJsonClient

/-- The parent record of the link samples. -/
def parentRecord : BusinessObjectRecord := { BusObID := "b1", BusObRecID := "r1" }

/-- The child record of the link samples. -/
def childRecord : BusinessObjectRecord := { BusObID := "b1", BusObRecID := "r2" }

/-! ## Theorems -/

/-! ### Time -/

theorem Time.Add_neg_five_minutes (t : Time) (h : t.wf) :
    t.Add (Minute * -5) = ⟨t.sec - 300, t.nsec⟩ := by
  unfold Time.wf at h
  have h1 : Int.tdiv (Minute * -5) 1000000000 = -300 := by decide
  have h2 : Int.tmod (Minute * -5) 1000000000 = 0 := by decide
  simp only [Time.Add, h1, h2]
  have h3 : ¬ ((t.nsec : Int) + 0 ≥ 1000000000) := by omega
  have h4 : ¬ ((t.nsec : Int) + 0 < 0) := by omega
  simp only [h3, h4, if_false]
  congr 1

theorem Time.Before_iff (t u : Time) (ht : t.wf) (hu : u.wf) :
    t.Before u = true ↔ t.toNanos < u.toNanos := by
  unfold Time.wf at ht hu
  simp only [Time.Before, Time.toNanos, Bool.or_eq_true, Bool.and_eq_true, decide_eq_true_eq]
  constructor
  · rintro (h | ⟨h1, h2⟩) <;> omega
  · intro h
    by_cases h1 : t.sec < u.sec
    · exact Or.inl h1
    · right
      constructor <;> omega

theorem validateToken_eq_true_iff (parse : String → Option Time) (now E : Time) (cl : Client)
    (hparse : parse cl.Expires = some E) (hE : E.wf) (hnow : now.wf) :
    validateToken parse now cl = true ↔ now.toNanos < E.toNanos - 5 * Minute := by
  have hwf : (⟨E.sec - 300, E.nsec⟩ : Time).wf := hE
  simp only [validateToken, hparse, Time.Add_neg_five_minutes E hE,
    Time.Before_iff now _ hnow hwf]
  simp only [Time.toNanos, Minute]
  omega

/-! ### Traces of the token refresh -/

theorem keepAlive_count_keepAlive {σ : Type} (w : World σ) (cl : Client) (s : Sys σ) :
    (keepAlive w cl s).sys.trace.count Event.keepAlive
      = s.trace.count Event.keepAlive + 1 := by
  unfold keepAlive
  simp only [Sys.emit]
  split
  · simp
  · split <;> simp

theorem keepAlive_count_login {σ : Type} (w : World σ) (cl : Client) (s : Sys σ) :
    (keepAlive w cl s).sys.trace.count Event.login = s.trace.count Event.login := by
  unfold keepAlive
  simp only [Sys.emit]
  split
  · simp
  · split <;> simp

theorem Login_count_login {σ : Type} (w : World σ) (cl : Client) (s : Sys σ) :
    (Login w cl s).sys.trace.count Event.login = s.trace.count Event.login + 1 := by
  unfold Login
  simp only [Sys.emit]
  split
  · simp
  · split
    · simp
    · split <;> simp

theorem Login_count_keepAlive {σ : Type} (w : World σ) (cl : Client) (s : Sys σ) :
    (Login w cl s).sys.trace.count Event.keepAlive = s.trace.count Event.keepAlive := by
  unfold Login
  simp only [Sys.emit]
  split
  · simp
  · split
    · simp
    · split <;> simp

theorem refreshToken_count_keepAlive {σ : Type} (w : World σ) (cl : Client) (s : Sys σ) :
    (refreshToken w cl s).2.2.trace.count Event.keepAlive
      = s.trace.count Event.keepAlive
        + (if validateToken w.parseRFC1123 (w.now s.world) cl then 0 else 1) := by
  unfold refreshToken
  cases hv : validateToken w.parseRFC1123 (w.now s.world) cl
  · cases hk : (keepAlive w cl s).ok
    · simp [hk, Login_count_keepAlive, keepAlive_count_keepAlive]
    · simp [hk, keepAlive_count_keepAlive]
  · simp

theorem refreshToken_count_login {σ : Type} (w : World σ) (cl : Client) (s : Sys σ) :
    (refreshToken w cl s).2.2.trace.count Event.login
      = s.trace.count Event.login
        + (if validateToken w.parseRFC1123 (w.now s.world) cl = false
              ∧ (keepAlive w cl s).ok = false then 1 else 0) := by
  unfold refreshToken
  cases hv : validateToken w.parseRFC1123 (w.now s.world) cl
  · cases hk : (keepAlive w cl s).ok
    · simp [hk, Login_count_login, keepAlive_count_login]
    · simp [hk, keepAlive_count_login]
  · simp

theorem perform_count {σ ι ω : Type} (w : World σ) (c : Codec ι ω) (ptr : Bool) (cl : Client)
    (method uri body : String) (output : ω) (s : Sys σ) (e : Event)
    (he : ∀ r, e ≠ Event.sent r) :
    (perform w c ptr cl method uri body output s).trace.count e = s.trace.count e := by
  unfold perform
  cases ptr
  · simp [Outcome.trace]
  · simp only [Bool.not_true, Bool.false_eq_true, if_false]
    split <;> simp [Outcome.trace, Sys.emit, List.count_cons, he]

theorem request_count {σ ι ω : Type} (w : World σ) (c : Codec ι ω) (cl : Client)
    (method uri : String) (input : Option ι) (output : ω) (s : Sys σ) (e : Event)
    (he : ∀ r, e ≠ Event.sent r) :
    (request w c cl method uri input output s).trace.count e
      = (refreshToken w cl s).2.2.trace.count e := by
  unfold request
  rcases refreshToken w cl s with ⟨ptr, cl', s'⟩
  cases input with
  | none =>
    simp only
    split
    · simp [Outcome.trace]
    · split
      · simp [Outcome.trace]
      · exact perform_count w c ptr cl' _ _ _ output s' e he
  | some i =>
    simp only
    split
    · simp [Outcome.trace]
    · split
      · simp [Outcome.trace]
      · exact perform_count w c ptr cl' _ _ _ output s' e he

/-! ### Token validation (C1, C2) -/

/-- C1: when `Expires` parses as the RFC1123 timestamp `E`, `validateToken` returns
true exactly when now is strictly earlier than `E` minus five minutes; and `request`
invokes the refresh `keepAlive` (once) exactly when `E` is at most five minutes
after now, which includes an expiry of exactly five minutes and a past one. -/
theorem validateToken_true_iff_before_five_minutes {σ ι ω : Type} (w : World σ)
    (c : Codec ι ω) (cl : Client) (E : Time) (method uri : String) (input : Option ι)
    (output : ω) (s : Sys σ)
    (hparse : w.parseRFC1123 cl.Expires = some E) (hE : E.wf) (hnow : (w.now s.world).wf) :
    (validateToken w.parseRFC1123 (w.now s.world) cl = true
        ↔ (w.now s.world).toNanos < E.toNanos - 5 * Minute)
    ∧ (validateToken w.parseRFC1123 (w.now s.world) cl = false
        ↔ E.toNanos - (w.now s.world).toNanos ≤ 5 * Minute)
    ∧ (request w c cl method uri input output s).trace.count Event.keepAlive
        = s.trace.count Event.keepAlive
          + (if E.toNanos - (w.now s.world).toNanos ≤ 5 * Minute then 1 else 0) := by
  have hiff := validateToken_eq_true_iff w.parseRFC1123 (w.now s.world) E cl hparse hE hnow
  have hfalse : validateToken w.parseRFC1123 (w.now s.world) cl = false
      ↔ E.toNanos - (w.now s.world).toNanos ≤ 5 * Minute := by
    rw [← Bool.not_eq_true, hiff]
    omega
  refine ⟨hiff, hfalse, ?_⟩
  rw [request_count w c cl method uri input output s Event.keepAlive (by intro r; simp),
    refreshToken_count_keepAlive]
  by_cases h : E.toNanos - (w.now s.world).toNanos ≤ 5 * Minute
  · simp [h, hfalse.mpr h]
  · have ht : validateToken w.parseRFC1123 (w.now s.world) cl = true := by
      rw [hiff]; omega
    simp [h, ht]

/-- Witness of C1: a token expiring in ten minutes is valid and no refresh is made. -/
theorem validateToken_true_iff_before_five_minutes_witness :
    (validateToken offlineWorld.parseRFC1123 (offlineWorld.now sys0.world) loggedInClient = true
        ↔ (offlineWorld.now sys0.world).toNanos < sampleExpiry.toNanos - 5 * Minute)
    ∧ (validateToken offlineWorld.parseRFC1123 (offlineWorld.now sys0.world) loggedInClient
          = false
        ↔ sampleExpiry.toNanos - (offlineWorld.now sys0.world).toNanos ≤ 5 * Minute)
    ∧ (request offlineWorld unitCodec loggedInClient "GET" "https://host/x" (none : Option Unit)
          () sys0).trace.count Event.keepAlive
        = sys0.trace.count Event.keepAlive
          + (if sampleExpiry.toNanos - (offlineWorld.now sys0.world).toNanos ≤ 5 * Minute
              then 1 else 0) :=
  validateToken_true_iff_before_five_minutes offlineWorld unitCodec loggedInClient
    sampleExpiry "GET" "https://host/x" none () sys0 (by decide) (by decide) (by decide)

/-- C2: when `Expires` does not parse, `validateToken` returns false whatever the
time is; so it does for a client fresh from `NewClient`, whose `Expires` is the
empty string, which is no RFC1123 timestamp. -/
theorem validateToken_false_of_parse_error (parse : String → Option Time) (now : Time)
    (cl : Client) (user password clientID baseURI auth_mode grant_type : String)
    (h : parse cl.Expires = none) (hempty : parse "" = none) :
    validateToken parse now cl = false
    ∧ (NewClient user password clientID baseURI auth_mode grant_type).Expires = ""
    ∧ validateToken parse now
        (NewClient user password clientID baseURI auth_mode grant_type) = false := by
  refine ⟨?_, rfl, ?_⟩
  · simp [validateToken, h]
  · simp [validateToken, NewClient, hempty]

/-- Witness of C2: an unparsable expiry and a fresh client. -/
theorem validateToken_false_of_parse_error_witness :
    validateToken sampleParse ⟨1136213645, 0⟩ { freshClient with Expires := "tomorrow" } = false
    ∧ (NewClient "u" "p" "c" "b" "a" "g").Expires = ""
    ∧ validateToken sampleParse ⟨1136213645, 0⟩ (NewClient "u" "p" "c" "b" "a" "g") = false :=
  validateToken_false_of_parse_error sampleParse ⟨1136213645, 0⟩
    { freshClient with Expires := "tomorrow" } "u" "p" "c" "b" "a" "g" (by decide) (by decide)

/-! ### Login and request (C8, C9, C10) -/

/-- C8 (evaluation): the server answers the token call with `badTokenBody`, which
cannot be decoded into a `Client`; `Login` nevertheless returns a non-nil pointer,
and the client's `Access_token` is no longer what it was. -/
theorem Login_decode_failure_returns_client :
    (unJson (answeringWorld badTokenBody).jsonClient ⟨some badTokenBody⟩
        (some freshClient)).2 = true
    ∧ (Login (answeringWorld badTokenBody) freshClient sys0).ret = true
    ∧ freshClient.Access_token = ""
    ∧ (Login (answeringWorld badTokenBody) freshClient sys0).client.Access_token = "abc" := by
  refine ⟨by decide, by decide, by decide, by decide⟩

/-- C9: `request` invokes `keepAlive` not at all when `validateToken` returns true
and exactly once when it returns false, and it invokes `Login` once exactly when
`validateToken` returned false and that `keepAlive` call returned false, and not at
all otherwise. -/
theorem request_invokes_keepAlive_then_Login {σ ι ω : Type} (w : World σ) (c : Codec ι ω)
    (cl : Client) (method uri : String) (input : Option ι) (output : ω) (s : Sys σ) :
    (request w c cl method uri input output s).trace.count Event.keepAlive
        = s.trace.count Event.keepAlive
          + (if validateToken w.parseRFC1123 (w.now s.world) cl then 0 else 1)
    ∧ (request w c cl method uri input output s).trace.count Event.login
        = s.trace.count Event.login
          + (if validateToken w.parseRFC1123 (w.now s.world) cl = false
                ∧ (keepAlive w cl s).ok = false then 1 else 0) := by
  constructor
  · rw [request_count w c cl method uri input output s Event.keepAlive (by intro r; simp),
      refreshToken_count_keepAlive]
  · rw [request_count w c cl method uri input output s Event.login (by intro r; simp),
      refreshToken_count_login]

/-- C10 (evaluation): with the server out of reach and a client fresh from
`NewClient`, the refresh fails, `Login` returns nil, and `request` panics on the
nil client, with a nil input as well as with an input. -/
theorem request_panics_after_failed_Login :
    (Login offlineWorld freshClient sys0).ret = false
    ∧ (request offlineWorld unitCodec freshClient "GET"
        (freshClient.BaseURI ++ getBusObSummariesAllURI) none () sys0).isReturned = false
    ∧ (request offlineWorld unitCodec freshClient "POST"
        (freshClient.BaseURI ++ saveBusObRecURI) (some ()) () sys0).isReturned = false := by
  refine ⟨by decide, by decide, by decide⟩

/-! ### Records: `processFields` and the synchronisation loop (C5, C7) -/

theorem foldl_insert_of_not_mem (fs : List Field) (m : GoMap Iface) (k : String)
    (h : ∀ g ∈ fs, g.DisplayName ≠ k) :
    (fs.foldl (fun m f => m.insert f.DisplayName (Iface.str f.Value)) m) k = m k := by
  induction fs generalizing m with
  | nil => rfl
  | cons f fs ih =>
    rw [List.foldl_cons, ih _ (fun g hg => h g (List.mem_cons_of_mem _ hg))]
    have hf : f.DisplayName ≠ k := h f (List.mem_cons_self _ _)
    simp [GoMap.insert, Ne.symm hf]

theorem foldl_insert_last (pre post : List Field) (f : Field) (m : GoMap Iface)
    (h : ∀ g ∈ post, g.DisplayName ≠ f.DisplayName) :
    ((pre ++ f :: post).foldl (fun m f => m.insert f.DisplayName (Iface.str f.Value)) m)
        f.DisplayName = some (Iface.str f.Value) := by
  rw [List.foldl_append, List.foldl_cons, foldl_insert_of_not_mem post _ _ h]
  simp [GoMap.insert]

theorem foldl_insert_isSome (fs : List Field) (m : GoMap Iface) (k : String) :
    ((fs.foldl (fun m f => m.insert f.DisplayName (Iface.str f.Value)) m) k).isSome = true
      ↔ (m k).isSome = true ∨ ∃ f ∈ fs, f.DisplayName = k := by
  induction fs generalizing m with
  | nil => simp
  | cons f fs ih =>
    rw [List.foldl_cons, ih]
    by_cases hk : k = f.DisplayName
    · subst hk
      simp [GoMap.insert]
    · have hk' : ¬ f.DisplayName = k := fun h => hk h.symm
      simp [GoMap.insert, hk, hk']

/-- C7: `processFields` sets `FieldValues` to a map whose keys are exactly the
display names occurring in `rec.Fields`, each mapped to the value of the last field
carrying that name; with pairwise distinct display names every field `f` has
`FieldValues[f.DisplayName] = f.Value`. The other parts of the record stay. -/
theorem processFields_FieldValues (rec : BusinessObjectRecord) :
    (∀ k, ((processFields rec).FieldValues k).isSome = true
        ↔ ∃ f ∈ rec.Fields, f.DisplayName = k)
    ∧ (∀ pre f post, rec.Fields = pre ++ f :: post
        → (∀ g ∈ post, g.DisplayName ≠ f.DisplayName)
        → (processFields rec).FieldValues f.DisplayName = some (Iface.str f.Value))
    ∧ (rec.Fields.Pairwise (fun a b => a.DisplayName ≠ b.DisplayName)
        → ∀ f ∈ rec.Fields,
            (processFields rec).FieldValues f.DisplayName = some (Iface.str f.Value))
    ∧ (processFields rec).Fields = rec.Fields := by
  refine ⟨?_, ?_, ?_, rfl⟩
  · intro k
    simp [processFields, collectFields, foldl_insert_isSome, GoMap.empty]
  · intro pre f post hsplit hlast
    simp only [processFields, collectFields, hsplit]
    exact foldl_insert_last pre post f _ hlast
  · intro hpw f hf
    obtain ⟨pre, post, hsplit⟩ := List.append_of_mem hf
    simp only [processFields, collectFields, hsplit]
    apply foldl_insert_last
    intro g hg
    rw [hsplit] at hpw
    have h2 := (List.pairwise_append.mp hpw).2.1
    exact Ne.symm (List.rel_of_pairwise_cons h2 hg)

/-- Witness of C7: of two fields named `Status` the later one fills the map. -/
theorem processFields_FieldValues_witness :
    (processFields sampleRecord).FieldValues "Status" = some (Iface.str "Closed") :=
  (processFields_FieldValues sampleRecord).2.1
    [{ DisplayName := "Status", Value := "New", FieldID := "f1" }]
    { DisplayName := "Status", Value := "Closed", FieldID := "f2" } [] rfl
    (by intro g hg; cases hg)

theorem syncAt_getElem? (fv : GoMap Iface) (l : List Field) (i j : Nat) :
    (syncAt fv l i)[j]? = if j = i then (l[j]?).map (syncField fv) else l[j]? := by
  unfold syncAt
  rw [List.get?_eq_getElem?]
  by_cases hji : j = i
  · subst hji
    cases hl : l[j]? with
    | none => simp [hl]
    | some f =>
      simp only [if_true, Option.map_some']
      by_cases hne : Iface.str f.Value ≠ fv.index f.DisplayName
      · simp [hne, syncField, List.getElem?_modify, hl]
      · simp [hne, syncField, hl]
  · simp only [hji, if_false]
    cases hl : l[i]? with
    | none => rfl
    | some f =>
      simp only
      split
      · rw [List.getElem?_modify_ne _ _ (Ne.symm hji)]
      · rfl

theorem foldl_syncAt_getElem? (fv : GoMap Iface) (l : List Field) (n j : Nat) :
    ((List.range n).foldl (syncAt fv) l)[j]?
      = if j < n then (l[j]?).map (syncField fv) else l[j]? := by
  induction n with
  | zero => simp
  | succ n ih =>
    rw [List.range_succ, List.foldl_append, List.foldl_cons, List.foldl_nil,
      syncAt_getElem?, ih]
    by_cases hjn : j = n
    · subst hjn
      simp
    · by_cases hlt : j < n
      · have : j < n + 1 := by omega
        simp [hjn, hlt, this]
      · have : ¬ j < n + 1 := by omega
        simp [hjn, hlt, this]

theorem syncFields_eq_map (fv : GoMap Iface) (l : List Field) :
    syncFields fv l = l.map (syncField fv) := by
  apply List.ext_getElem?
  intro j
  unfold syncFields
  rw [foldl_syncAt_getElem?, List.getElem?_map]
  by_cases hlt : j < l.length
  · simp [hlt]
  · have hnone : l[j]? = none := List.getElem?_eq_none (by omega)
    simp [hlt, hnone]

theorem syncField_Value (fv : GoMap Iface) (f : Field) :
    (syncField fv f).Value = Sprint (fv.index f.DisplayName)
    ∧ (syncField fv f).DisplayName = f.DisplayName := by
  unfold syncField
  by_cases hne : Iface.str f.Value ≠ fv.index f.DisplayName
  · simp [hne]
  · have heq : fv.index f.DisplayName = Iface.str f.Value := by
      simpa using (not_not.mp hne).symm
    simp [heq, Sprint]

/-- C5: for a non-nil record, the record that `SaveBusinessObjectRecord` hands to
the save request has the fields of the synchronisation loop and the `FieldValues`
of the caller, and they are in sync: every field's `Value` is the string rendering
of `FieldValues[DisplayName]`. -/
theorem SaveBusinessObjectRecord_sent_in_sync {σ : Type} (w : World σ)
    (enc : BusinessObjectRecord → Option String)
    (dec : String → BusinessObjectRecord → BusinessObjectRecord × Bool)
    (rec : BusinessObjectRecord) (cl : Client) (s : Sys σ) :
    ∃ r, (SaveBusinessObjectRecord w enc dec (some rec) cl s).sent = some r
      ∧ r.FieldValues = rec.FieldValues
      ∧ r.Fields = syncFields rec.FieldValues rec.Fields
      ∧ r.Fields.length = rec.Fields.length
      ∧ ∀ f ∈ r.Fields, f.Value = Sprint (r.FieldValues.index f.DisplayName) := by
  refine ⟨{ rec with Persist := true, Fields := syncFields rec.FieldValues rec.Fields },
    ?_, rfl, rfl, ?_, ?_⟩
  · unfold SaveBusinessObjectRecord
    simp only
    split <;> rfl
  · simp [syncFields_eq_map]
  · intro f hf
    simp only [syncFields_eq_map, List.mem_map] at hf
    obtain ⟨g, _, rfl⟩ := hf
    have h := syncField_Value rec.FieldValues g
    simp only
    rw [h.1, h.2]

/-! ### Placeholder substitution (C3, C4) -/

theorem replaceOnce_single_nil (t : Char) (v : List Char) : replaceOnce [t] v [] = [] := by
  simp [replaceOnce]

theorem replaceOnce_single_cons (t : Char) (v : List Char) (c : Char) (s : List Char) :
    replaceOnce [t] v (c :: s) = if c = t then v ++ s else c :: replaceOnce [t] v s := by
  by_cases h : c = t
  · subst h
    simp [replaceOnce, List.isPrefixOf]
  · have h' : ¬ t = c := fun e => h e.symm
    simp [replaceOnce, List.isPrefixOf, h, h']

theorem replaceOnce_single_append_of_mem (t : Char) (v w r : List Char) (h : t ∈ w) :
    replaceOnce [t] v (w ++ r) = replaceOnce [t] v w ++ r := by
  induction w with
  | nil => cases h
  | cons c w ih =>
    rw [List.cons_append, replaceOnce_single_cons, replaceOnce_single_cons]
    by_cases hc : c = t
    · simp [hc]
    · have hw : t ∈ w := by
        rcases List.mem_cons.mp h with h1 | h1
        · exact absurd h1.symm hc
        · exact h1
      simp [hc, ih hw]

theorem replaceOnce_single_append_of_not_mem (t : Char) (v w r : List Char) (h : t ∉ w) :
    replaceOnce [t] v (w ++ r) = w ++ replaceOnce [t] v r := by
  induction w with
  | nil => rfl
  | cons c w ih =>
    rw [List.cons_append, replaceOnce_single_cons]
    have hc : ¬ c = t := fun e => h (by simp [e])
    have hw : t ∉ w := fun e => h (List.mem_cons_of_mem _ e)
    simp [hc, ih hw]

theorem replaceOnce_single_at (t : Char) (v xs ys : List Char) (h : t ∉ xs) :
    replaceOnce [t] v (xs ++ t :: ys) = xs ++ (v ++ ys) := by
  rw [replaceOnce_single_append_of_not_mem t v xs _ h, replaceOnce_single_cons]
  simp

theorem FirstOnly.refl (P seen us : List Char) : FirstOnly P seen us us := by
  induction us generalizing seen with
  | nil => exact FirstOnly.nil seen
  | cons c us ih => exact FirstOnly.keep seen c us us (ih (c :: seen))

theorem FirstOnly.mono (P Q : List Char) (hPQ : ∀ c ∈ P, c ∈ Q) (seen us out : List Char)
    (h : FirstOnly P seen us out) : FirstOnly Q seen us out := by
  induction h with
  | nil seen => exact FirstOnly.nil seen
  | keep seen c us out _ ih => exact FirstOnly.keep seen c us out ih
  | repl seen c w us out hc hcs _ ih => exact FirstOnly.repl seen c w us out (hPQ c hc) hcs ih

theorem FirstOnly.replaceOnce (P : List Char) (t : Char) (v : List Char) (ht : t ∉ P)
    (seen us out : List Char) (h : FirstOnly P seen us out) (hseen : t ∉ seen) :
    FirstOnly (t :: P) seen us (replaceOnce [t] v out) := by
  have hsub : ∀ c ∈ P, c ∈ t :: P := fun c hc => List.mem_cons_of_mem _ hc
  induction h with
  | nil seen =>
    rw [replaceOnce_single_nil]
    exact FirstOnly.nil seen
  | keep seen c us out hrest ih =>
    rw [replaceOnce_single_cons]
    by_cases hc : c = t
    · subst hc
      simp only [if_true]
      exact FirstOnly.repl seen c v us out (List.mem_cons_self _ _) hseen
        (FirstOnly.mono P _ hsub _ _ _ hrest)
    · simp only [hc, if_false]
      refine FirstOnly.keep seen c us _ (ih ?_)
      intro hmem
      rcases List.mem_cons.mp hmem with h1 | h1
      · exact hc h1.symm
      · exact hseen h1
  | repl seen c w us out hc hcs hrest ih =>
    have hct : c ≠ t := fun e => ht (e ▸ hc)
    by_cases hw : t ∈ w
    · rw [replaceOnce_single_append_of_mem t v w out hw]
      exact FirstOnly.repl seen c _ us out (hsub c hc) hcs
        (FirstOnly.mono P _ hsub _ _ _ hrest)
    · rw [replaceOnce_single_append_of_not_mem t v w out hw]
      refine FirstOnly.repl seen c w us _ (hsub c hc) hcs (ih ?_)
      intro hmem
      rcases List.mem_cons.mp hmem with h1 | h1
      · exact hct h1.symm
      · exact hseen h1

theorem mem_presentTokens (values : GoMap String) (t : Char) (key : String)
    (hkey : keyOf t = some key) (hval : (values key).isSome = true) :
    t ∈ presentTokens values := by
  unfold presentTokens
  rw [List.mem_filter]
  refine ⟨?_, by simp [hkey, hval]⟩
  unfold keyOf at hkey
  by_contra hmem
  simp only [List.mem_cons, List.mem_singleton, not_or, List.not_mem_nil, or_false] at hmem
  obtain ⟨h1, h2, h3, h4, h5, h6⟩ := hmem
  simp [h1, h2, h3, h4, h5, h6] at hkey

/-- One guarded replacement keeps the invariant of `formatURI`: the current string
differs from the URI only at first occurrences of tokens that have been processed
and whose key is present. -/
theorem substKey_invariant (values : GoMap String) (u : List Char) (T : List Char)
    (t : Char) (key tok cur : String) (htok : tok.data = [t]) (hkey : keyOf t = some key)
    (hT : t ∉ T)
    (h : ∃ P, (∀ c ∈ P, c ∈ T ∧ c ∈ presentTokens values) ∧ FirstOnly P [] u cur.data) :
    ∃ P, (∀ c ∈ P, c ∈ t :: T ∧ c ∈ presentTokens values)
      ∧ FirstOnly P [] u (substKey values key tok cur).data := by
  obtain ⟨P, hP, hF⟩ := h
  unfold substKey
  cases hv : values key with
  | none =>
    exact ⟨P, fun c hc => ⟨List.mem_cons_of_mem _ (hP c hc).1, (hP c hc).2⟩, hF⟩
  | some v =>
    refine ⟨t :: P, ?_, ?_⟩
    · intro c hc
      rcases List.mem_cons.mp hc with h1 | h1
      · subst h1
        exact ⟨List.mem_cons_self _ _, mem_presentTokens values c key hkey (by simp [hv])⟩
      · exact ⟨List.mem_cons_of_mem _ (hP c h1).1, (hP c h1).2⟩
    · simp only [Replace1, htok]
      exact FirstOnly.replaceOnce P t v.data (fun hmem => hT (hP t hmem).1) [] u cur.data hF
        (by simp)

/-- C3: the result of `formatURI` differs from the URI only in that the first
occurrence of a placeholder whose key is in the map may be replaced by a string:
every later occurrence of a placeholder, every placeholder whose key is absent and
every other character of the URI is copied to the result, in order. -/
theorem formatURI_replaces_first_only (uri : String) (values : GoMap String) :
    FirstOnly (presentTokens values) [] uri.data (formatURI uri values).data := by
  have h0 : ∃ P, (∀ c ∈ P, c ∈ ([] : List Char) ∧ c ∈ presentTokens values)
      ∧ FirstOnly P [] uri.data uri.data :=
    ⟨[], by simp, FirstOnly.refl _ _ _⟩
  have h1 := substKey_invariant values uri.data [] '$' "busobid" busobid uri rfl rfl
    (by decide) h0
  have h2 := substKey_invariant values uri.data _ '#' "busobrecid" busobrecid _ rfl rfl
    (by decide) h1
  have h3 := substKey_invariant values uri.data _ '*' "busobpublicid" busobpublicid _ rfl rfl
    (by decide) h2
  have h4 := substKey_invariant values uri.data _ '&' "childbusobid" childbusobid _ rfl rfl
    (by decide) h3
  have h5 := substKey_invariant values uri.data _ '+' "childbusobrecid" childbusobrecid _ rfl
    rfl (by decide) h4
  have h6 := substKey_invariant values uri.data _ '?' "relationshipid" relationshipid _ rfl
    rfl (by decide) h5
  obtain ⟨P, hP, hF⟩ := h6
  exact FirstOnly.mono P _ (fun c hc => (hP c hc).2) _ _ _ hF

theorem linkValues_lookup (p r rel c cr : String) :
    linkValues p r rel c cr "busobid" = some p
    ∧ linkValues p r rel c cr "busobrecid" = some r
    ∧ linkValues p r rel c cr "busobpublicid" = none
    ∧ linkValues p r rel c cr "childbusobid" = some c
    ∧ linkValues p r rel c cr "childbusobrecid" = some cr
    ∧ linkValues p r rel c cr "relationshipid" = some rel := by
  simp [linkValues, GoMap.insert, GoMap.empty]

theorem linkBusObRecURI_data :
    linkBusObRecURI.data
      = "api/V2/linkrelatedbusinessobject/parentbusobid/".data ++ '$' ::
        ("/parentbusobrecid/".data ++ '#' :: ("/relationshipid/".data ++ '?' ::
        ("/busobid/".data ++ '&' :: ("/busobrecid/".data ++ ['+'])))) := by
  decide

/-- The five replacements of the link template on character lists, for segments and
values free of the template's placeholder characters. -/
theorem replaceOnce_link_template (B s1 s2 s3 s4 s5 P R L C D : List Char)
    (hB : ∀ x ∈ B, x ∉ linkPlaceholders) (h1 : ∀ x ∈ s1, x ∉ linkPlaceholders)
    (h2 : ∀ x ∈ s2, x ∉ linkPlaceholders) (h3 : ∀ x ∈ s3, x ∉ linkPlaceholders)
    (h4 : ∀ x ∈ s4, x ∉ linkPlaceholders) (h5 : ∀ x ∈ s5, x ∉ linkPlaceholders)
    (hP : ∀ x ∈ P, x ∉ linkPlaceholders) (hR : ∀ x ∈ R, x ∉ linkPlaceholders)
    (hC : ∀ x ∈ C, x ∉ linkPlaceholders) :
    replaceOnce ['?'] L (replaceOnce ['+'] D (replaceOnce ['&'] C (replaceOnce ['#'] R
      (replaceOnce ['$'] P
        (B ++ (s1 ++ '$' :: (s2 ++ '#' :: (s3 ++ '?' :: (s4 ++ '&' :: (s5 ++ ['+']))))))))))
      = B ++ s1 ++ P ++ s2 ++ R ++ s3 ++ L ++ s4 ++ C ++ s5 ++ D := by
  have nm : ∀ (t : Char) (xs : List Char), t ∈ linkPlaceholders →
      (∀ x ∈ xs, x ∉ linkPlaceholders) → t ∉ xs := fun t xs ht h hmem => h t hmem ht
  have a1 : B ++ (s1 ++ '$' :: (s2 ++ '#' :: (s3 ++ '?' :: (s4 ++ '&' :: (s5 ++ ['+'])))))
      = (B ++ s1) ++ '$' :: (s2 ++ '#' :: (s3 ++ '?' :: (s4 ++ '&' :: (s5 ++ ['+'])))) := by
    simp
  rw [a1, replaceOnce_single_at '$' P (B ++ s1) _ (by
    simp only [List.mem_append, not_or]
    exact ⟨nm _ _ (by decide) hB, nm _ _ (by decide) h1⟩)]
  have a2 : (B ++ s1) ++ (P ++ (s2 ++ '#' :: (s3 ++ '?' :: (s4 ++ '&' :: (s5 ++ ['+'])))))
      = (B ++ s1 ++ P ++ s2) ++ '#' :: (s3 ++ '?' :: (s4 ++ '&' :: (s5 ++ ['+']))) := by
    simp
  rw [a2, replaceOnce_single_at '#' R (B ++ s1 ++ P ++ s2) _ (by
    simp only [List.mem_append, not_or]
    exact ⟨⟨⟨nm _ _ (by decide) hB, nm _ _ (by decide) h1⟩, nm _ _ (by decide) hP⟩,
      nm _ _ (by decide) h2⟩)]
  have a3 : (B ++ s1 ++ P ++ s2) ++ (R ++ (s3 ++ '?' :: (s4 ++ '&' :: (s5 ++ ['+']))))
      = (B ++ s1 ++ P ++ s2 ++ R ++ s3 ++ ['?'] ++ s4) ++ '&' :: (s5 ++ ['+']) := by
    simp
  rw [a3, replaceOnce_single_at '&' C (B ++ s1 ++ P ++ s2 ++ R ++ s3 ++ ['?'] ++ s4) _ (by
    simp only [List.mem_append, not_or]
    exact ⟨⟨⟨⟨⟨⟨⟨nm _ _ (by decide) hB, nm _ _ (by decide) h1⟩, nm _ _ (by decide) hP⟩,
      nm _ _ (by decide) h2⟩, nm _ _ (by decide) hR⟩, nm _ _ (by decide) h3⟩, by decide⟩,
      nm _ _ (by decide) h4⟩)]
  have a4 : (B ++ s1 ++ P ++ s2 ++ R ++ s3 ++ ['?'] ++ s4) ++ (C ++ (s5 ++ ['+']))
      = (B ++ s1 ++ P ++ s2 ++ R ++ s3 ++ ['?'] ++ s4 ++ C ++ s5) ++ '+' :: [] := by
    simp
  rw [a4, replaceOnce_single_at '+' D (B ++ s1 ++ P ++ s2 ++ R ++ s3 ++ ['?'] ++ s4 ++ C ++ s5)
    _ (by
    simp only [List.mem_append, not_or]
    exact ⟨⟨⟨⟨⟨⟨⟨⟨⟨nm _ _ (by decide) hB, nm _ _ (by decide) h1⟩, nm _ _ (by decide) hP⟩,
      nm _ _ (by decide) h2⟩, nm _ _ (by decide) hR⟩, nm _ _ (by decide) h3⟩, by decide⟩,
      nm _ _ (by decide) h4⟩, nm _ _ (by decide) hC⟩, nm _ _ (by decide) h5⟩)]
  have a5 : (B ++ s1 ++ P ++ s2 ++ R ++ s3 ++ ['?'] ++ s4 ++ C ++ s5) ++ (D ++ [])
      = (B ++ s1 ++ P ++ s2 ++ R ++ s3) ++ '?' :: (s4 ++ C ++ s5 ++ D) := by
    simp
  rw [a5, replaceOnce_single_at '?' L (B ++ s1 ++ P ++ s2 ++ R ++ s3) _ (by
    simp only [List.mem_append, not_or]
    exact ⟨⟨⟨⟨⟨nm _ _ (by decide) hB, nm _ _ (by decide) h1⟩, nm _ _ (by decide) hP⟩,
      nm _ _ (by decide) h2⟩, nm _ _ (by decide) hR⟩, nm _ _ (by decide) h3⟩)]
  simp

theorem linkPlaceholders_of_placeholderFree (s : String) (h : placeholderFree s) :
    ∀ x ∈ s.data, x ∉ linkPlaceholders := by
  intro x hx hmem
  apply h x hx
  simp only [linkPlaceholders, List.mem_cons, List.mem_singleton, List.not_mem_nil,
    or_false] at hmem
  simp only [placeholders, List.mem_cons, List.mem_singleton, List.not_mem_nil, or_false]
  tauto

/-- C4 (amended): for a base URI free of the characters `$ # ? & +` and values
free of the six placeholder characters, `formatURI` fills every placeholder of the
link template with the value of its own key. -/
theorem formatURI_link_template (b p r rel c cr : String) (hb : linkPlaceholderFree b)
    (hp : placeholderFree p) (hr : placeholderFree r) (hrel : placeholderFree rel)
    (hc : placeholderFree c) (hcr : placeholderFree cr) :
    formatURI (b ++ linkBusObRecURI) (linkValues p r rel c cr) = linkURI b p r rel c cr := by
  obtain ⟨l1, l2, l3, l4, l5, l6⟩ := linkValues_lookup p r rel c cr
  have _ := hrel
  have _ := hcr
  apply String.ext
  simp only [formatURI, substKey, l1, l2, l3, l4, l5, l6, Replace1, linkURI, String.data_append,
    linkBusObRecURI_data, busobid, busobrecid, childbusobid, childbusobrecid, relationshipid]
  exact replaceOnce_link_template b.data _ _ _ _ _ p.data r.data rel.data c.data cr.data hb
    (by decide) (by decide) (by decide) (by decide) (by decide)
    (linkPlaceholders_of_placeholderFree p hp) (linkPlaceholders_of_placeholderFree r hr)
    (linkPlaceholders_of_placeholderFree c hc)

/-- Witness of C4 (amended): the link URI of two sample records. -/
theorem formatURI_link_template_witness :
    formatURI ("https://host/CherwellAPI/" ++ linkBusObRecURI)
        (linkValues "b1" "r1" "rel1" "b2" "r2")
      = linkURI "https://host/CherwellAPI/" "b1" "r1" "rel1" "b2" "r2" :=
  formatURI_link_template "https://host/CherwellAPI/" "b1" "r1" "rel1" "b2" "r2"
    (by decide) (by decide) (by decide) (by decide) (by decide) (by decide)

/-- C4 (counterexample): with the base URI `$` and values free of placeholder
characters, the parent id lands in the base URI and the template keeps its `$`. -/
theorem formatURI_link_template_base_counterexample :
    placeholderFree "b1" ∧ placeholderFree "r1" ∧ placeholderFree "rel1"
    ∧ placeholderFree "b2" ∧ placeholderFree "r2"
    ∧ formatURI ("$" ++ linkBusObRecURI) (linkValues "b1" "r1" "rel1" "b2" "r2")
        = "b1api/V2/linkrelatedbusinessobject/parentbusobid/$/parentbusobrecid/r1/relationshipid/rel1/busobid/b2/busobrecid/r2"
    ∧ formatURI ("$" ++ linkBusObRecURI) (linkValues "b1" "r1" "rel1" "b2" "r2")
        ≠ "$" ++ "api/V2/linkrelatedbusinessobject/parentbusobid/" ++ "b1"
            ++ "/parentbusobrecid/" ++ "r1" ++ "/relationshipid/" ++ "rel1" ++ "/busobid/"
            ++ "b2" ++ "/busobrecid/" ++ "r2" := by
  refine ⟨by decide, by decide, by decide, by decide, by decide, by decide, by decide⟩

theorem FirstOnly.eq_of_seen (P seen us out : List Char) (h : FirstOnly P seen us out)
    (hseen : ∀ c ∈ us, c ∈ P → c ∈ seen) : out = us := by
  induction h with
  | nil seen => rfl
  | keep seen c us out _ ih =>
    rw [ih (fun d hd hP => List.mem_cons_of_mem _ (hseen d (List.mem_cons_of_mem _ hd) hP))]
  | repl seen c w us out hc hcs _ _ =>
    exact absurd (hseen c (List.mem_cons_self _ _) hc) hcs

/-! ### The record returned by a save (C6) -/

/-- C6 (evaluation): the server answers a save with a body that carries the field
`Status = Done`; the record `SaveBusinessObjectRecord` returns has that field, but
its `FieldValues` has no entry for `Status`, where `processFields` would have put
`Done`. -/
theorem SaveBusinessObjectRecord_returns_unprocessed :
    (SaveBusinessObjectRecord (answeringWorld saveResponseBody) sampleEncodeRecord
        sampleDecodeRecord (some (processFields sampleRecord)) loggedInClient sys0).ret.map
          (fun r => r.Fields)
      = some [{ DisplayName := "Status", Value := "Done" }]
    ∧ (SaveBusinessObjectRecord (answeringWorld saveResponseBody) sampleEncodeRecord
        sampleDecodeRecord (some (processFields sampleRecord)) loggedInClient sys0).ret.map
          (fun r => r.FieldValues "Status")
      = some none
    ∧ (SaveBusinessObjectRecord (answeringWorld saveResponseBody) sampleEncodeRecord
        sampleDecodeRecord (some (processFields sampleRecord)) loggedInClient sys0).ret.map
          (fun r => (processFields r).FieldValues "Status")
      = some (some (Iface.str "Done")) := by
  refine ⟨by decide, by decide, by decide⟩

/-! ### Supporting facts on the failure paths -/

/-- When `http.NewRequest` or the transport fails, `Login` returns nil and the
client is as before. -/
theorem Login_nil_of_transport_failure {σ : Type} (w : World σ) (cl : Client) (s : Sys σ)
    (h : w.newRequestFails "POST" (cl.BaseURI ++ "token?auth_mode=" ++ cl.Auth_mode) = true
      ∨ (w.send s.world ⟨"POST", cl.BaseURI ++ "token?auth_mode=" ++ cl.Auth_mode,
          w.formEncode ([("grant_type", cl.Grant_Type), ("client_id", cl.ClientID),
            ("username", cl.User)]
            ++ (if cl.Password ≠ "" then [("password", cl.Password)] else [])),
          "application/x-www-form-urlencoded", "application/json", ""⟩).1 = none) :
    (Login w cl s).ret = false ∧ (Login w cl s).client = cl := by
  unfold Login
  simp only [Sys.emit]
  by_cases hn : w.newRequestFails "POST" (cl.BaseURI ++ "token?auth_mode=" ++ cl.Auth_mode)
      = true
  · simp [hn]
  · rcases h with h | h
    · exact absurd h hn
    · simp only [hn, Bool.false_eq_true, if_false]
      split
      · simp
      · rename_i resp σ' heq
        rw [heq] at h
        cases h

/-- As long as the local client pointer is non-nil after the token check, `request`
returns normally. -/
theorem request_returns_of_pointer {σ ι ω : Type} (w : World σ) (c : Codec ι ω) (cl : Client)
    (method uri : String) (input : Option ι) (output : ω) (s : Sys σ)
    (h : (refreshToken w cl s).1 = true) :
    (request w c cl method uri input output s).isReturned = true := by
  unfold request
  rcases hr : refreshToken w cl s with ⟨ptr, cl', s'⟩
  rw [hr] at h
  simp only at h
  subst h
  have hperf : ∀ (m u b : String),
      (perform w c true cl' m u b output s').isReturned = true := by
    intro m u b
    unfold perform
    simp only [Bool.not_true, Bool.false_eq_true, if_false]
    split <;> rfl
  cases input with
  | none =>
    simp only [Bool.not_true, Bool.false_eq_true, if_false]
    split
    · rfl
    · exact hperf _ _ _
  | some i =>
    simp only
    split
    · rfl
    · split
      · rfl
      · exact hperf _ _ _

/-- The output of `request` is the caller's value or what decoding some response
into it leaves. -/
theorem request_out_cases {σ ι ω : Type} (w : World σ) (c : Codec ι ω) (cl : Client)
    (method uri : String) (input : Option ι) (output : ω) (s : Sys σ) :
    (request w c cl method uri input output s).out = output
    ∨ ∃ resp, (request w c cl method uri input output s).out
        = (unJson c.unmarshal resp output).1 := by
  have hperf : ∀ (ptr : Bool) (cl' : Client) (m u b : String) (s' : Sys σ),
      (perform w c ptr cl' m u b output s').out = output
      ∨ ∃ resp, (perform w c ptr cl' m u b output s').out
          = (unJson c.unmarshal resp output).1 := by
    intro ptr cl' m u b s'
    unfold perform
    cases ptr
    · exact Or.inl rfl
    · simp only [Bool.not_true, Bool.false_eq_true, if_false]
      split
      · exact Or.inl rfl
      · rename_i resp σ' _
        exact Or.inr ⟨resp, rfl⟩
  unfold request
  rcases refreshToken w cl s with ⟨ptr, cl', s'⟩
  cases input with
  | none =>
    simp only
    split
    · exact Or.inl rfl
    · split
      · exact Or.inl rfl
      · exact hperf _ _ _ _ _ _
  | some i =>
    simp only
    split
    · exact Or.inl rfl
    · split
      · exact Or.inl rfl
      · exact hperf _ _ _ _ _ _

/-- Whatever the server answers, the record `SaveBusinessObjectRecord` returns has
an empty `FieldValues`. -/
theorem SaveBusinessObjectRecord_ret_FieldValues {σ : Type} (w : World σ)
    (enc : BusinessObjectRecord → Option String)
    (dec : String → BusinessObjectRecord → BusinessObjectRecord × Bool)
    (rec : Option BusinessObjectRecord) (cl : Client) (s : Sys σ)
    (out : BusinessObjectRecord)
    (h : (SaveBusinessObjectRecord w enc dec rec cl s).ret = some out) :
    out.FieldValues = GoMap.empty := by
  cases rec with
  | none => simp [SaveBusinessObjectRecord] at h
  | some r =>
    unfold SaveBusinessObjectRecord at h
    simp only at h
    split at h
    · rename_i cl' o s' heq
      simp only [Option.some.injEq] at h
      subst h
      have hc := request_out_cases w ⟨enc, unmarshalRecord dec⟩ cl "post"
        (cl.BaseURI ++ saveBusObRecURI)
        (some { r with Persist := true,
                       Fields := syncFields r.FieldValues r.Fields })
        ({} : BusinessObjectRecord) s
      rw [heq] at hc
      simp only [Outcome.out] at hc
      rcases hc with hc | ⟨resp, hc⟩
      · rw [hc]
      · rw [hc]
        unfold unJson
        cases resp.body with
        | none => rfl
        | some b => rfl
    · cases h

/-! ### The body of a request (C11) -/

/-- C11: the request that `request` itself sends, if it sends one, is built from
the client as the token check leaves it: with a nil input its body is the form
encoding of the single parameter `client_id` with the client's `ClientID`, with an
input it is the JSON marshalling of the input; nothing is sent when the client
pointer is nil, when marshalling fails or when `http.NewRequest` fails. -/
theorem request_body {σ ι ω : Type} (w : World σ) (c : Codec ι ω) (cl : Client)
    (method uri : String) (input : Option ι) (output : ω) (s : Sys σ) :
    (request w c cl method uri input output s).trace =
      match refreshToken w cl s with
      | (ptr, cl', s') =>
        match input with
        | none =>
          if ptr = true ∧ w.newRequestFails method.toUpper uri = false then
            Event.sent ⟨method.toUpper, uri, w.formEncode [("client_id", cl'.ClientID)],
              "application/json", "application/json", "Bearer " ++ cl'.Access_token⟩
              :: s'.trace
          else s'.trace
        | some i =>
          match c.marshal i with
          | none => s'.trace
          | some payload =>
            if ptr = true ∧ w.newRequestFails method.toUpper uri = false then
              Event.sent ⟨method.toUpper, uri, payload,
                "application/json", "application/json", "Bearer " ++ cl'.Access_token⟩
                :: s'.trace
            else s'.trace := by
  have hperf : ∀ (cl' : Client) (m u b : String) (s' : Sys σ),
      (perform w c true cl' m u b output s').trace
        = Event.sent ⟨m, u, b, "application/json", "application/json",
            "Bearer " ++ cl'.Access_token⟩ :: s'.trace := by
    intro cl' m u b s'
    unfold perform
    simp only [Bool.not_true, Bool.false_eq_true, if_false]
    split <;> rfl
  unfold request
  rcases refreshToken w cl s with ⟨ptr, cl', s'⟩
  cases input with
  | none =>
    cases ptr
    · simp [Outcome.trace]
    · cases hf : w.newRequestFails method.toUpper uri
      · simp [hf, hperf]
      · simp [hf, Outcome.trace]
  | some i =>
    simp only
    cases hm : c.marshal i with
    | none => simp [Outcome.trace]
    | some payload =>
      cases hf : w.newRequestFails method.toUpper uri
      · cases ptr
        · simp [perform, Outcome.trace]
        · simp [hperf]
      · simp [Outcome.trace]

/-! ### Looking up business objects (C12, C13) -/

theorem findGroupByDisplayName_eq_find? (d : String) (cs : List BusinessObject) :
    findGroupByDisplayName d cs = cs.find? (fun b => decide (b.DisplayName = d)) := by
  induction cs with
  | nil => rfl
  | cons c cs ih =>
    by_cases h : c.DisplayName = d
    · simp [findGroupByDisplayName, List.find?, h]
    · simp [findGroupByDisplayName, List.find?, h, ih]

theorem findByDisplayName_eq_find? (d : String) (res : List BusinessObject) :
    findByDisplayName d res = (traversal res).find? (fun b => decide (b.DisplayName = d)) := by
  induction res with
  | nil => rfl
  | cons b bs ih =>
    unfold traversal at ih ⊢
    rw [List.flatMap_cons, List.cons_append, findByDisplayName]
    by_cases h : b.DisplayName = d
    · simp [List.find?, h]
    · rw [List.find?_cons_of_neg _ (by simpa using h), List.find?_append,
        ← findGroupByDisplayName_eq_find?, ← ih]
      simp only [h, if_false]
      cases findGroupByDisplayName d b.GroupSummaries <;> rfl

theorem findGroupByBusObID_eq_find? (d : String) (cs : List BusinessObject) :
    findGroupByBusObID d cs = cs.find? (fun b => decide (b.BusObID = d)) := by
  induction cs with
  | nil => rfl
  | cons c cs ih =>
    by_cases h : c.BusObID = d
    · simp [findGroupByBusObID, List.find?, h]
    · simp [findGroupByBusObID, List.find?, h, ih]

theorem findByBusObID_eq_find? (d : String) (res : List BusinessObject) :
    findByBusObID d res = (traversal res).find? (fun b => decide (b.BusObID = d)) := by
  induction res with
  | nil => rfl
  | cons b bs ih =>
    unfold traversal at ih ⊢
    rw [List.flatMap_cons, List.cons_append, findByBusObID]
    by_cases h : b.BusObID = d
    · simp [List.find?, h]
    · rw [List.find?_cons_of_neg _ (by simpa using h), List.find?_append,
        ← findGroupByBusObID_eq_find?, ← ih]
      simp only [h, if_false]
      cases findGroupByBusObID d b.GroupSummaries <;> rfl

theorem mem_traversal (res : List BusinessObject) (x : BusinessObject) :
    x ∈ traversal res ↔ ∃ b ∈ res, x = b ∨ x ∈ b.GroupSummaries := by
  simp [traversal, List.mem_flatMap]

theorem find?_eq_none_traversal (res : List BusinessObject) (p : BusinessObject → Prop)
    [DecidablePred p] :
    (traversal res).find? (fun b => decide (p b)) = none
      ↔ ∀ b ∈ res, ¬ p b ∧ ∀ c ∈ b.GroupSummaries, ¬ p c := by
  rw [List.find?_eq_none]
  constructor
  · intro h b hb
    refine ⟨by simpa using h b ((mem_traversal res b).mpr ⟨b, hb, Or.inl rfl⟩), ?_⟩
    intro c hc
    simpa using h c ((mem_traversal res c).mpr ⟨b, hb, Or.inr hc⟩)
  · intro h x hx
    obtain ⟨b, hb, hxb⟩ := (mem_traversal res x).mp hx
    rcases hxb with rfl | hxb
    · simpa using (h x hb).1
    · simpa using (h b hb).2 x hxb

/-- C12: `GetBusinessObjectByDisplayName` returns what its loop finds in the list
decoded from the server's answer; the loop finds the first object with the display
name in traversal order (each summary before its own group summaries), finds nothing
exactly when no summary and no group summary of a summary has the display name, and
what it finds has the display name. -/
theorem GetBusinessObjectByDisplayName_first_match {σ : Type} (w : World σ) (j : Json)
    (cl : Client) (displayName : String) (s : Sys σ) (res : List BusinessObject) :
    ((GetBusinessObjectByDisplayName w j cl displayName s).isReturned
        = (request w (decoding j.decSummaries) cl "get"
            (cl.BaseURI ++ getBusObSummariesAllURI) none [] s).isReturned
      ∧ (GetBusinessObjectByDisplayName w j cl displayName s).out
        = if (request w (decoding j.decSummaries) cl "get"
              (cl.BaseURI ++ getBusObSummariesAllURI) none [] s).isReturned
          then findByDisplayName displayName
            (request w (decoding j.decSummaries) cl "get"
              (cl.BaseURI ++ getBusObSummariesAllURI) none [] s).out
          else none)
    ∧ findByDisplayName displayName res
        = (traversal res).find? (fun b => decide (b.DisplayName = displayName))
    ∧ (findByDisplayName displayName res = none
        ↔ ∀ b ∈ res, b.DisplayName ≠ displayName
            ∧ ∀ c ∈ b.GroupSummaries, c.DisplayName ≠ displayName)
    ∧ (∀ b, findByDisplayName displayName res = some b
        → b.DisplayName = displayName ∧ b ∈ traversal res) := by
  refine ⟨?_, findByDisplayName_eq_find? _ _, ?_, ?_⟩
  · unfold GetBusinessObjectByDisplayName
    simp only
    split <;> rename_i heq <;> rw [heq] <;> simp [Outcome.isReturned, Outcome.out]
  · rw [findByDisplayName_eq_find?]
    exact find?_eq_none_traversal res (fun b => b.DisplayName = displayName)
  · intro b hb
    rw [findByDisplayName_eq_find?] at hb
    exact ⟨by simpa using List.find?_some hb, List.mem_of_find?_eq_some hb⟩

/-- Witness of C12: `Server` is found in the group of the second summary. -/
theorem GetBusinessObjectByDisplayName_first_match_witness :
    (GetBusinessObjectByDisplayName summariesWorld sampleJson loggedInClient "Server"
        sys0).out.map (fun b => b.BusObID) = some "b3"
    ∧ sampleGroupMember.DisplayName = "Server" ∧ sampleGroupMember ∈ traversal sampleSummaries :=
  ⟨by
    rw [(GetBusinessObjectByDisplayName_first_match summariesWorld sampleJson loggedInClient
      "Server" sys0 sampleSummaries).1.2]
    decide,
   (GetBusinessObjectByDisplayName_first_match summariesWorld sampleJson loggedInClient
      "Server" sys0 sampleSummaries).2.2.2 sampleGroupMember (by
        simp [findByDisplayName, findGroupByDisplayName, sampleSummaries, sampleGroupMember])⟩

/-- C13: `GetBusinessObjectByBusObID` returns what its loop finds in the list decoded
from the server's answer; what the loop finds has the id, and it finds nothing
exactly when no summary and no group summary of a summary has the id. -/
theorem GetBusinessObjectByBusObID_match {σ : Type} (w : World σ) (j : Json)
    (cl : Client) (busObID : String) (s : Sys σ) (res : List BusinessObject) :
    ((GetBusinessObjectByBusObID w j cl busObID s).isReturned
        = (request w (decoding j.decSummaries) cl "GET"
            (formatURI (cl.BaseURI ++ getBusObSummariesAllURI)
              (GoMap.empty.insert "busobid" busObID)) none [] s).isReturned
      ∧ (GetBusinessObjectByBusObID w j cl busObID s).out
        = if (request w (decoding j.decSummaries) cl "GET"
              (formatURI (cl.BaseURI ++ getBusObSummariesAllURI)
                (GoMap.empty.insert "busobid" busObID)) none [] s).isReturned
          then findByBusObID busObID
            (request w (decoding j.decSummaries) cl "GET"
              (formatURI (cl.BaseURI ++ getBusObSummariesAllURI)
                (GoMap.empty.insert "busobid" busObID)) none [] s).out
          else none)
    ∧ findByBusObID busObID res
        = (traversal res).find? (fun b => decide (b.BusObID = busObID))
    ∧ (findByBusObID busObID res = none
        ↔ ∀ b ∈ res, b.BusObID ≠ busObID ∧ ∀ c ∈ b.GroupSummaries, c.BusObID ≠ busObID)
    ∧ (∀ b, findByBusObID busObID res = some b → b.BusObID = busObID ∧ b ∈ traversal res) := by
  refine ⟨?_, findByBusObID_eq_find? _ _, ?_, ?_⟩
  · unfold GetBusinessObjectByBusObID
    simp only
    split <;> rename_i heq <;> rw [heq] <;> simp [Outcome.isReturned, Outcome.out]
  · rw [findByBusObID_eq_find?]
    exact find?_eq_none_traversal res (fun b => b.BusObID = busObID)
  · intro b hb
    rw [findByBusObID_eq_find?] at hb
    exact ⟨by simpa using List.find?_some hb, List.mem_of_find?_eq_some hb⟩

/-- Witness of C13: the id `b3` is found in the group of the second summary. -/
theorem GetBusinessObjectByBusObID_match_witness :
    (GetBusinessObjectByBusObID summariesWorld sampleJson loggedInClient "b3"
        sys0).out.map (fun b => b.DisplayName) = some "Server"
    ∧ sampleGroupMember.BusObID = "b3" ∧ sampleGroupMember ∈ traversal sampleSummaries :=
  ⟨by
    rw [(GetBusinessObjectByBusObID_match summariesWorld sampleJson loggedInClient
      "b3" sys0 sampleSummaries).1.2]
    decide,
   (GetBusinessObjectByBusObID_match summariesWorld sampleJson loggedInClient
      "b3" sys0 sampleSummaries).2.2.2 sampleGroupMember (by
        simp [findByBusObID, findGroupByBusObID, sampleSummaries, sampleGroupMember])⟩

/-! ### What the synchronisation loop changes (C14) -/

/-- C14: for a non-nil record, the fields handed to the save request (and left in
the caller's record) correspond one to one, in order, to the fields before the call:
`Name`, `DisplayName`, `FieldID`, `Html` and `FullFieldID` are unchanged; a field
whose `Value` differed from `FieldValues[DisplayName]` is marked dirty and takes the
rendering of that entry, and every other field keeps its `Value` and `Dirty`. -/
theorem SaveBusinessObjectRecord_commits_changes {σ : Type} (w : World σ)
    (enc : BusinessObjectRecord → Option String)
    (dec : String → BusinessObjectRecord → BusinessObjectRecord × Bool)
    (rec : BusinessObjectRecord) (cl : Client) (s : Sys σ) :
    ∃ r, (SaveBusinessObjectRecord w enc dec (some rec) cl s).sent = some r
      ∧ (SaveBusinessObjectRecord w enc dec (some rec) cl s).record = some r
      ∧ r.Fields.length = rec.Fields.length
      ∧ List.Forall₂ (fun f g =>
          g.Name = f.Name ∧ g.DisplayName = f.DisplayName ∧ g.FieldID = f.FieldID
          ∧ g.Html = f.Html ∧ g.FullFieldID = f.FullFieldID
          ∧ (if Iface.str f.Value ≠ rec.FieldValues.index f.DisplayName then
              g.Dirty = true ∧ g.Value = Sprint (rec.FieldValues.index f.DisplayName)
            else g.Value = f.Value ∧ g.Dirty = f.Dirty))
          rec.Fields r.Fields := by
  refine ⟨{ rec with Persist := true, Fields := syncFields rec.FieldValues rec.Fields },
    ?_, ?_, ?_, ?_⟩
  · unfold SaveBusinessObjectRecord
    simp only
    split <;> rfl
  · unfold SaveBusinessObjectRecord
    simp only
    split <;> rfl
  · simp [syncFields_eq_map]
  · simp only [syncFields_eq_map]
    rw [List.forall₂_map_right_iff]
    apply List.forall₂_same.mpr
    intro f _
    unfold syncField
    by_cases hne : Iface.str f.Value ≠ rec.FieldValues.index f.DisplayName
    · simp [hne]
    · simp [hne]

/-! ### Filters of a search (C15, C18, C19) -/

theorem eq_triple_of_length (fi : List String) (h : fi.length = 3) :
    ∃ a b c, fi = [a, b, c] := by
  match fi, h with
  | [a, b, c], _ => exact ⟨a, b, c, rfl⟩

theorem filterLoop_wellformed (f : Field) (filters : List (List String)) (acc : List Filter)
    (h : ∀ fi ∈ filters, fi.length = 3) :
    filterLoop f filters acc = some (acc ++ expectedFilters [f] filters) := by
  induction filters generalizing acc with
  | nil => simp [filterLoop, expectedFilters]
  | cons fi rest ih =>
    obtain ⟨a, b, c, rfl⟩ := eq_triple_of_length fi (h fi (List.mem_cons_self _ _))
    have hrest : ∀ fi ∈ rest, fi.length = 3 := fun x hx => h x (List.mem_cons_of_mem _ hx)
    have ih' := fun acc => ih acc hrest
    simp only [expectedFilters, List.flatMap_cons, List.flatMap_nil, List.append_nil] at ih' ⊢
    unfold filterLoop
    by_cases hd : f.DisplayName = a
    · simp [hd, ih', List.filterMap_cons]
    · simp [hd, ih', List.filterMap_cons]

theorem fieldLoop_wellformed (fields : List Field) (filters : List (List String))
    (acc : List Filter) (h : ∀ fi ∈ filters, fi.length = 3) :
    fieldLoop filters fields acc = some (acc ++ expectedFilters fields filters) := by
  induction fields generalizing acc with
  | nil => simp [fieldLoop, expectedFilters]
  | cons f fs ih =>
    unfold fieldLoop
    rw [filterLoop_wellformed f filters acc h]
    simp only
    rw [ih]
    simp [expectedFilters, List.flatMap_cons]

theorem filterLoop_malformed (f : Field) (filters : List (List String)) (acc : List Filter)
    (h : ∃ fi ∈ filters, fi.length ≠ 3) : filterLoop f filters acc = none := by
  induction filters generalizing acc with
  | nil => obtain ⟨fi, hfi, _⟩ := h; cases hfi
  | cons fi rest ih =>
    by_cases hlen : fi.length = 3
    · obtain ⟨a, b, c, rfl⟩ := eq_triple_of_length fi hlen
      have hrest : ∃ fi ∈ rest, fi.length ≠ 3 := by
        obtain ⟨x, hx, hx3⟩ := h
        rcases List.mem_cons.mp hx with rfl | hx
        · exact absurd hlen hx3
        · exact ⟨x, hx, hx3⟩
      unfold filterLoop
      by_cases hd : f.DisplayName = a
      · simp [hd, ih _ hrest]
      · simp [hd, ih _ hrest]
    · unfold filterLoop
      split
      · exact absurd rfl hlen
      · rfl

/-- With a template of at least one field, a filter whose length is not 3 ends the
loops with `return nil`. -/
theorem fieldLoop_malformed (f : Field) (fs : List Field) (filters : List (List String))
    (acc : List Filter) (h : ∃ fi ∈ filters, fi.length ≠ 3) :
    fieldLoop filters (f :: fs) acc = none := by
  unfold fieldLoop
  rw [filterLoop_malformed f filters acc h]

theorem collectRecords_eq_map (rs : List BusinessObjectRecord) :
    collectRecords rs = rs.map processFields := by
  unfold collectRecords
  have h : ∀ (acc : List BusinessObjectRecord),
      rs.foldl (fun records r => records ++ [processFields r]) acc
        = acc ++ rs.map processFields := by
    induction rs with
    | nil => simp
    | cons r rs ih => intro acc; simp [List.foldl_cons, ih]
  simpa using h []

/-- C15 (evaluation): the template of the business object has no fields and the
only filter has length 1; both search methods issue the search request all the same
and return a non-nil result. -/
theorem search_malformed_filter_unchecked :
    (∃ fi ∈ [["Status"]], fi.length ≠ 3)
    ∧ (SearchMultipleBusinessObjectRecords emptyTemplateWorld sampleJson (some incident)
        loggedInClient [["Status"]] sys0).out.isSome = true
    ∧ (sentTo getSearchResultsURI
        (SearchMultipleBusinessObjectRecords emptyTemplateWorld sampleJson (some incident)
          loggedInClient [["Status"]] sys0).trace).length = 1
    ∧ (SearchBusinessObjectRecord emptyTemplateWorld sampleJson (some incident)
        loggedInClient [["Status"]] sys0).out.isSome = true
    ∧ (sentTo getSearchResultsURI
        (SearchBusinessObjectRecord emptyTemplateWorld sampleJson (some incident)
          loggedInClient [["Status"]] sys0).trace).length = 1 := by
  refine ⟨⟨["Status"], by simp, by decide⟩, by decide, by decide, by decide, by decide⟩

/-- With a template of at least one field, a filter whose length is not 3 makes both
search methods return nil right after the template call. -/
theorem search_malformed_filter_checked {σ : Type} (w : World σ) (j : Json)
    (b : BusinessObject) (cl cl' : Client) (filters : List (List String)) (s s' : Sys σ)
    (t : BusinessObjectTemplate) (f : Field) (fs : List Field)
    (ht : GetBusinessObjectTemplate w j (some b) cl s = .returned cl' (some t) s')
    (hf : t.Fields = f :: fs) (h : ∃ fi ∈ filters, fi.length ≠ 3) :
    SearchBusinessObjectRecord w j (some b) cl filters s = .returned cl' none s'
    ∧ SearchMultipleBusinessObjectRecords w j (some b) cl filters s = .returned cl' none s' := by
  unfold SearchBusinessObjectRecord SearchMultipleBusinessObjectRecords
  simp only [ht, hf, fieldLoop_malformed f fs filters [] h, and_self]

/-- C17 (evaluation): a search that finds nothing, and a search request that fails
in the transport, both leave an empty result list, and `SearchBusinessObjectRecord`
panics on `res.BusinessObjects[0]`; `SearchMultipleBusinessObjectRecords` returns
the empty list on the same answer. -/
theorem SearchBusinessObjectRecord_panics_on_empty :
    (SearchBusinessObjectRecord noRecordWorld sampleJson (some incident) loggedInClient
        [["Status", "EQ", "Done"]] sys0).isReturned = false
    ∧ (SearchBusinessObjectRecord (routedWorld []) sampleJson (some incident) loggedInClient
        [["Status", "EQ", "Done"]] sys0).isReturned = false
    ∧ (SearchMultipleBusinessObjectRecords noRecordWorld sampleJson (some incident)
        loggedInClient [["Status", "EQ", "Done"]] sys0).isReturned = true
    ∧ (SearchMultipleBusinessObjectRecords noRecordWorld sampleJson (some incident)
        loggedInClient [["Status", "EQ", "Done"]] sys0).out.map List.length = some 0 := by
  refine ⟨by decide, by decide, by decide, by decide⟩

/-- C18: for filters that all are triples, the loops of the search methods build
exactly the filters of `expectedFilters` (template order, then argument order; a
triple that names no template field adds nothing), the query carries the business
object's `BusObID`, these filters and `IncludeAllFields = true`, and both methods
hand this query to the search request. -/
theorem search_query_filters {σ : Type} (w : World σ) (j : Json) (b : BusinessObject)
    (cl : Client) (filters : List (List String)) (s : Sys σ) (fields : List Field)
    (h : ∀ fi ∈ filters, fi.length = 3) :
    fieldLoop filters fields [] = some (expectedFilters fields filters)
    ∧ (∀ name op value, (∀ f ∈ fields, f.DisplayName ≠ name)
        → expectedFilters fields [[name, op, value]] = [])
    ∧ (∀ filter, (searchQuery b filter).BusObID = b.BusObID
        ∧ (searchQuery b filter).Filters = filter
        ∧ (searchQuery b filter).IncludeAllFields = true)
    ∧ SearchBusinessObjectRecord w j (some b) cl filters s
        = (match GetBusinessObjectTemplate w j (some b) cl s with
          | .returned cl' (some t) s' =>
            firstRecord (request w ⟨j.encSearch, j.decSearchResult⟩ cl' "POST"
              (cl.BaseURI ++ getSearchResultsURI)
              (some (searchQuery b (expectedFilters t.Fields filters))) {} s')
          | .returned cl' none s' => .panicked cl' none s'
          | .panicked cl' _ s' => .panicked cl' none s')
    ∧ SearchMultipleBusinessObjectRecords w j (some b) cl filters s
        = (match GetBusinessObjectTemplate w j (some b) cl s with
          | .returned cl' (some t) s' =>
            allRecords (request w ⟨j.encSearch, j.decSearchResult⟩ cl' "POST"
              (cl.BaseURI ++ getSearchResultsURI)
              (some (searchQuery b (expectedFilters t.Fields filters))) {} s')
          | .returned cl' none s' => .panicked cl' none s'
          | .panicked cl' _ s' => .panicked cl' none s') := by
  refine ⟨by simpa using fieldLoop_wellformed fields filters [] h, ?_, ?_, ?_, ?_⟩
  · intro name op value hno
    unfold expectedFilters
    rw [List.flatMap_eq_nil_iff]
    intro f hf
    simp [hno f hf]
  · intro filter
    exact ⟨rfl, rfl, rfl⟩
  · unfold SearchBusinessObjectRecord
    simp only
    generalize GetBusinessObjectTemplate w j (some b) cl s = o
    cases o with
    | panicked cl' t s' => rfl
    | returned cl' t s' =>
      cases t with
      | none => rfl
      | some t => simp [fieldLoop_wellformed t.Fields filters [] h]
  · unfold SearchMultipleBusinessObjectRecords
    simp only
    generalize GetBusinessObjectTemplate w j (some b) cl s = o
    cases o with
    | panicked cl' t s' => rfl
    | returned cl' t s' =>
      cases t with
      | none => rfl
      | some t => simp [fieldLoop_wellformed t.Fields filters [] h]

/-- Witness of C18: one triple on a one-field template. -/
theorem search_query_filters_witness :
    fieldLoop [["Status", "EQ", "Done"]] [{ DisplayName := "Status", FieldID := "f1" }] []
      = some (expectedFilters [{ DisplayName := "Status", FieldID := "f1" }]
          [["Status", "EQ", "Done"]]) :=
  (search_query_filters searchWorld sampleJson incident loggedInClient
    [["Status", "EQ", "Done"]] sys0 [{ DisplayName := "Status", FieldID := "f1" }]
    (by decide)).1

/-- C19: for filters that all are triples, `SearchMultipleBusinessObjectRecords`
returns, when the search request returns, the records of the response's
`BusinessObjects`, as many and in the same order, each with `FieldValues` filled by
`processFields`. -/
theorem SearchMultipleBusinessObjectRecords_returns_all {σ : Type} (w : World σ) (j : Json)
    (b : BusinessObject) (cl : Client) (filters : List (List String)) (s : Sys σ)
    (h : ∀ fi ∈ filters, fi.length = 3) :
    SearchMultipleBusinessObjectRecords w j (some b) cl filters s
        = (match GetBusinessObjectTemplate w j (some b) cl s with
          | .returned cl' (some t) s' =>
            match request w ⟨j.encSearch, j.decSearchResult⟩ cl' "POST"
              (cl.BaseURI ++ getSearchResultsURI)
              (some (searchQuery b (expectedFilters t.Fields filters))) {} s' with
            | .returned cl'' res s'' =>
              .returned cl'' (some (res.BusinessObjects.map processFields)) s''
            | .panicked cl'' _ s'' => .panicked cl'' none s''
          | .returned cl' none s' => .panicked cl' none s'
          | .panicked cl' _ s' => .panicked cl' none s')
    ∧ ∀ rs : List BusinessObjectRecord,
        collectRecords rs = rs.map processFields
        ∧ (collectRecords rs).length = rs.length
        ∧ List.Forall₂ (fun r o => o = processFields r) rs (collectRecords rs) := by
  constructor
  · unfold SearchMultipleBusinessObjectRecords
    simp only
    generalize GetBusinessObjectTemplate w j (some b) cl s = o
    cases o with
    | panicked cl' t s' => rfl
    | returned cl' t s' =>
      cases t with
      | none => rfl
      | some t =>
        simp only [fieldLoop_wellformed t.Fields filters [] h, List.nil_append]
        generalize request w ⟨j.encSearch, j.decSearchResult⟩ cl' "POST"
          (cl.BaseURI ++ getSearchResultsURI)
          (some (searchQuery b (expectedFilters t.Fields filters))) {} s' = r
        cases r with
        | returned c res s2 => simp [allRecords, collectRecords_eq_map]
        | panicked c res s2 => simp [allRecords]
  · intro rs
    refine ⟨collectRecords_eq_map rs, by simp [collectRecords_eq_map], ?_⟩
    rw [collectRecords_eq_map, List.forall₂_map_right_iff]
    exact List.forall₂_same.mpr (fun _ _ => rfl)

/-- Witness of C19: the one record the sample search finds, with its field value. -/
theorem SearchMultipleBusinessObjectRecords_returns_all_witness :
    (SearchMultipleBusinessObjectRecords searchWorld sampleJson (some incident) loggedInClient
        [["Status", "EQ", "Done"]] sys0).out.map
          (fun rs => rs.map (fun r => (r.BusObRecID, r.FieldValues "Status")))
      = some [("r1", some (Iface.str "Done"))] := by
  rw [(SearchMultipleBusinessObjectRecords_returns_all searchWorld sampleJson incident
    loggedInClient [["Status", "EQ", "Done"]] sys0 (by decide)).1]
  decide

/-! ### The legacy record lookup (C16) -/

theorem legacy_Replace1_dollar (boid : String) :
    Replace1 Legacy.getBusObRecByRecIdURI "$" boid
      = "api/v1/getbusinessobject/busobid/" ++ boid ++ "/busobrecid/#" := by
  apply String.ext
  have hT : Legacy.getBusObRecByRecIdURI.data
      = "api/v1/getbusinessobject/busobid/".data ++ '$' :: "/busobrecid/#".data := by decide
  simp only [Replace1, hT, String.data_append]
  exact (replaceOnce_single_at '$' boid.data _ _ (by decide)).trans (by simp)

theorem legacy_Replace1_hash (rid : String) :
    Replace1 Legacy.getBusObRecByRecIdURI "#" rid
      = "api/v1/getbusinessobject/busobid/$/busobrecid/" ++ rid := by
  apply String.ext
  have hT : Legacy.getBusObRecByRecIdURI.data
      = "api/v1/getbusinessobject/busobid/$/busobrecid/".data ++ '#' :: [] := by decide
  simp only [Replace1, hT, String.data_append]
  exact (replaceOnce_single_at '#' rid.data _ _ (by decide)).trans (by simp)

/-- C16 (evaluation, for every input): the legacy `GetObRecByRecID` appends the
template twice, once with the business-object id filled in and once with the record
id, so the URI it requests keeps a `#` and a `$` and is never the URI of the claim,
`BaseURI + "api/v1/getbusinessobject/busobid/" + boid + "/busobrecid/" + rid`. -/
theorem legacy_GetObRecByRecID_wrong_uri {σ : Type} (w : World σ)
    (dec : String → Legacy.ObRec → Legacy.ObRec × Bool) (a : Client) (boid rid : String)
    (s : Sys σ) :
    (Legacy.GetObRecByRecID w dec a boid rid s).2.trace
        = (if w.newRequestFails "GET" (Legacy.recByRecIDURI a boid rid) then s.trace
          else Event.sent ⟨"GET", Legacy.recByRecIDURI a boid rid,
            w.formEncode [("client_id", a.ClientID)], "application/json", "application/json",
            "Bearer " ++ a.Access_token⟩ :: s.trace)
    ∧ Legacy.recByRecIDURI a boid rid
        = a.BaseURI ++ "api/v1/getbusinessobject/busobid/" ++ boid ++ "/busobrecid/#"
            ++ "api/v1/getbusinessobject/busobid/$/busobrecid/" ++ rid
    ∧ Legacy.recByRecIDURI a boid rid ≠ recordURI a.BaseURI boid rid := by
  have huri : Legacy.recByRecIDURI a boid rid
      = a.BaseURI ++ "api/v1/getbusinessobject/busobid/" ++ boid ++ "/busobrecid/#"
          ++ "api/v1/getbusinessobject/busobid/$/busobrecid/" ++ rid := by
    unfold Legacy.recByRecIDURI
    rw [legacy_Replace1_dollar, legacy_Replace1_hash]
    simp only [String.append_assoc]
  refine ⟨?_, huri, ?_⟩
  · unfold Legacy.GetObRecByRecID
    simp only
    split
    · rfl
    · split <;> rfl
  · rw [huri]
    intro heq
    have hlen := congrArg String.length heq
    simp only [recordURI, String.length_append] at hlen
    have h1 : ("/busobrecid/#" : String).length = 13 := by decide
    have h2 : ("api/v1/getbusinessobject/busobid/$/busobrecid/" : String).length = 46 := by
      decide
    have h3 : ("/busobrecid/" : String).length = 12 := by decide
    omega

theorem replaceOnce_recID_template (B s1 s2 P R : List Char)
    (hB : ∀ c ∈ B, c ≠ '$' ∧ c ≠ '#') (h1 : ∀ c ∈ s1, c ≠ '$' ∧ c ≠ '#')
    (h2 : ∀ c ∈ s2, c ≠ '#') (hP : ∀ c ∈ P, c ≠ '#') :
    replaceOnce ['#'] R (replaceOnce ['$'] P (B ++ (s1 ++ '$' :: (s2 ++ ['#']))))
      = B ++ s1 ++ P ++ s2 ++ R := by
  have a1 : B ++ (s1 ++ '$' :: (s2 ++ ['#'])) = (B ++ s1) ++ '$' :: (s2 ++ ['#']) := by simp
  rw [a1, replaceOnce_single_at '$' P (B ++ s1) _ (by
    simp only [List.mem_append, not_or]
    exact ⟨fun hm => (hB _ hm).1 rfl, fun hm => (h1 _ hm).1 rfl⟩)]
  have a2 : (B ++ s1) ++ (P ++ (s2 ++ ['#'])) = (B ++ s1 ++ P ++ s2) ++ '#' :: [] := by simp
  rw [a2, replaceOnce_single_at '#' R (B ++ s1 ++ P ++ s2) _ (by
    simp only [List.mem_append, not_or]
    exact ⟨⟨⟨fun hm => (hB _ hm).2 rfl, fun hm => (h1 _ hm).2 rfl⟩, fun hm => hP _ hm rfl⟩,
      fun hm => h2 _ hm rfl⟩)]
  simp

/-- The current client builds the URI of the claim, for a base URI free of `$` and
`#` and a business-object id free of `#`. -/
theorem formatURI_recByRecID (base boid rid : String)
    (hb : ∀ c ∈ base.data, c ≠ '$' ∧ c ≠ '#') (hboid : ∀ c ∈ boid.data, c ≠ '#') :
    formatURI (base ++ getBusObRecByRecIdURI) (recIDValues boid rid)
      = recordURI base boid rid := by
  have l1 : recIDValues boid rid "busobid" = some boid := by
    simp [recIDValues, GoMap.insert, GoMap.empty]
  have l2 : recIDValues boid rid "busobrecid" = some rid := by
    simp [recIDValues, GoMap.insert, GoMap.empty]
  have l3 : recIDValues boid rid "busobpublicid" = none := by
    simp [recIDValues, GoMap.insert, GoMap.empty]
  have l4 : recIDValues boid rid "childbusobid" = none := by
    simp [recIDValues, GoMap.insert, GoMap.empty]
  have l5 : recIDValues boid rid "childbusobrecid" = none := by
    simp [recIDValues, GoMap.insert, GoMap.empty]
  have l6 : recIDValues boid rid "relationshipid" = none := by
    simp [recIDValues, GoMap.insert, GoMap.empty]
  have hT : getBusObRecByRecIdURI.data
      = "api/v1/getbusinessobject/busobid/".data ++ '$' :: ("/busobrecid/".data ++ ['#']) := by
    decide
  apply String.ext
  simp only [formatURI, substKey, l1, l2, l3, l4, l5, l6, Replace1, recordURI,
    String.data_append, hT, busobid, busobrecid]
  exact replaceOnce_recID_template base.data _ _ boid.data rid.data hb (by decide) (by decide)
    hboid

/-! ### Linking records (C20) -/

/-- When the lookup of the business object returns nil, `linkCall` returns nil in
the state the lookup left, so no link or unlink request is made. -/
theorem linkCall_not_found {σ : Type} (w : World σ) (j : Json) (template method : String)
    (rec : BusinessObjectRecord) (cl cl1 : Client) (childRec : Option BusinessObjectRecord)
    (relationshipName : String) (s s1 : Sys σ)
    (h : GetBusinessObjectByBusObID w j cl rec.BusObID s = .returned cl1 none s1) :
    linkCall w j template method (some rec) cl childRec relationshipName s
      = .returned cl1 none s1 := by
  unfold linkCall
  simp only [h]

set_option maxRecDepth 8192

/-- C20 (evaluation): the business object of the parent record is found, yet neither
method returns an `Error` value: with a nil child record they panic on
`childRec.BusObID`, and when the server drops out after the lookup while the token
reaches its last five minutes they panic inside `request`, on the nil client that
the failed `Login` returned. With a child record and a reachable server they return
a non-nil value. -/
theorem link_panics_though_found :
    (GetBusinessObjectByBusObID linkWorld sampleJson loggedInClient parentRecord.BusObID
        sys0).out.isSome = true
    ∧ (LinkBusinessObjectRecord linkWorld sampleJson (some parentRecord) loggedInClient none
        "Tasks" sys0).isReturned = false
    ∧ (UnlinkBusinessObjectRecord linkWorld sampleJson (some parentRecord) loggedInClient none
        "Tasks" sys0).isReturned = false
    ∧ (GetBusinessObjectByBusObID droppingWorld sampleJson loggedInClient parentRecord.BusObID
        ⟨0, []⟩).out.isSome = true
    ∧ (LinkBusinessObjectRecord droppingWorld sampleJson (some parentRecord) loggedInClient
        (some childRecord) "Tasks" ⟨0, []⟩).isReturned = false
    ∧ (UnlinkBusinessObjectRecord droppingWorld sampleJson (some parentRecord) loggedInClient
        (some childRecord) "Tasks" ⟨0, []⟩).isReturned = false
    ∧ (LinkBusinessObjectRecord linkWorld sampleJson (some parentRecord) loggedInClient
        (some childRecord) "Tasks" sys0).out.isSome = true := by
  refine ⟨by decide, by decide, by decide, by decide, by decide, by decide, by decide⟩

/-! ### Relationship ids (C21) -/

theorem findRelationshipID_eq_find? (name : String) (rs : List Relationship) :
    findRelationshipID name rs
      = match rs.find? (fun r => decide (r.DisplayName = name)) with
        | some r => r.RelationshipID
        | none => "" := by
  induction rs with
  | nil => rfl
  | cons r rs ih =>
    by_cases h : r.DisplayName = name
    · simp [findRelationshipID, List.find?, h]
    · simp [findRelationshipID, List.find?, h, ih]

/-- C21: `GetRelationshipID` returns the `RelationshipID` of the first relationship
of the schema whose `DisplayName` is the name, and the empty string when there is no
such relationship or when the schema is nil. -/
theorem GetRelationshipID_first (sch : BusinessObjectSchema) (name : String) :
    GetRelationshipID none name = ""
    ∧ GetRelationshipID (some sch) name
        = (match sch.Relationships.find? (fun r => decide (r.DisplayName = name)) with
          | some r => r.RelationshipID
          | none => "")
    ∧ (∀ pre r post, sch.Relationships = pre ++ r :: post
        → (∀ q ∈ pre, q.DisplayName ≠ name) → r.DisplayName = name
        → GetRelationshipID (some sch) name = r.RelationshipID)
    ∧ ((∀ r ∈ sch.Relationships, r.DisplayName ≠ name)
        → GetRelationshipID (some sch) name = "") := by
  refine ⟨rfl, findRelationshipID_eq_find? _ _, ?_, ?_⟩
  · intro pre r post hsplit hpre hr
    simp only [GetRelationshipID, findRelationshipID_eq_find?, hsplit]
    have hnone : pre.find? (fun r => decide (r.DisplayName = name)) = none := by
      rw [List.find?_eq_none]
      intro q hq
      simpa using hpre q hq
    rw [List.find?_append, hnone]
    simp [List.find?, hr]
  · intro hno
    simp only [GetRelationshipID, findRelationshipID_eq_find?]
    have hnone : sch.Relationships.find? (fun r => decide (r.DisplayName = name)) = none := by
      rw [List.find?_eq_none]
      intro q hq
      simpa using hno q hq
    rw [hnone]

/-- Witness of C21: of two relationships named `Tasks` the first gives the id. -/
theorem GetRelationshipID_first_witness :
    GetRelationshipID
      (some { Relationships := [{ DisplayName := "Owner", RelationshipID := "rel0" },
                                { DisplayName := "Tasks", RelationshipID := "rel1" },
                                { DisplayName := "Tasks", RelationshipID := "rel2" }] })
      "Tasks" = "rel1" :=
  (GetRelationshipID_first
    { Relationships := [{ DisplayName := "Owner", RelationshipID := "rel0" },
                        { DisplayName := "Tasks", RelationshipID := "rel1" },
                        { DisplayName := "Tasks", RelationshipID := "rel2" }] } "Tasks").2.2.1
    [{ DisplayName := "Owner", RelationshipID := "rel0" }]
    { DisplayName := "Tasks", RelationshipID := "rel1" }
    [{ DisplayName := "Tasks", RelationshipID := "rel2" }] rfl (by decide) rfl

/-! ### Fields without an entry in `FieldValues` (C22) -/

/-- C22: in the record handed to the save request, every field whose `DisplayName`
is not a key of `FieldValues` has the `Value` `<nil>` and is dirty, whatever its
value was; with a nil `FieldValues` that is every field. -/
theorem SaveBusinessObjectRecord_missing_key_nil {σ : Type} (w : World σ)
    (enc : BusinessObjectRecord → Option String)
    (dec : String → BusinessObjectRecord → BusinessObjectRecord × Bool)
    (rec : BusinessObjectRecord) (cl : Client) (s : Sys σ) :
    ∃ r, (SaveBusinessObjectRecord w enc dec (some rec) cl s).sent = some r
      ∧ List.Forall₂ (fun f g =>
          rec.FieldValues f.DisplayName = none
            → g = { f with Value := "<nil>", Dirty := true })
          rec.Fields r.Fields
      ∧ ((∀ k, rec.FieldValues k = none)
          → r.Fields = rec.Fields.map (fun f => { f with Value := "<nil>", Dirty := true })) := by
  have hfield : ∀ f : Field, rec.FieldValues f.DisplayName = none
      → syncField rec.FieldValues f = { f with Value := "<nil>", Dirty := true } := by
    intro f hnone
    simp [syncField, GoMap.index, hnone, Sprint]
  refine ⟨{ rec with Persist := true, Fields := syncFields rec.FieldValues rec.Fields },
    ?_, ?_, ?_⟩
  · unfold SaveBusinessObjectRecord
    simp only
    split <;> rfl
  · simp only [syncFields_eq_map]
    rw [List.forall₂_map_right_iff]
    exact List.forall₂_same.mpr (fun f _ hnone => hfield f hnone)
  · intro hnil
    simp only [syncFields_eq_map]
    exact List.map_congr_left (fun f _ => hfield f (hnil _))

/-- Witness of C22: a record built by hand, with a nil `FieldValues`. -/
theorem SaveBusinessObjectRecord_missing_key_nil_witness :
    (SaveBusinessObjectRecord (answeringWorld saveResponseBody) sampleEncodeRecord
        sampleDecodeRecord (some sampleRecord) loggedInClient sys0).sent.map
          (fun r => r.Fields.map (fun f => (f.Value, f.Dirty)))
      = some [("<nil>", true), ("<nil>", true)] := by
  obtain ⟨r, hsent, _, hall⟩ := SaveBusinessObjectRecord_missing_key_nil
    (answeringWorld saveResponseBody) sampleEncodeRecord sampleDecodeRecord sampleRecord
    loggedInClient sys0
  rw [hsent, Option.map_some', hall (fun _ => rfl)]
  decide

/-! ### Simultaneous substitution (C23, C24) -/

theorem keyOf_of_mem_placeholders (t : Char) (h : t ∈ placeholders) :
    ∃ key, keyOf t = some key := by
  simp only [placeholders, List.mem_cons, List.mem_singleton, List.not_mem_nil,
    or_false] at h
  rcases h with rfl | rfl | rfl | rfl | rfl | rfl <;> exact ⟨_, rfl⟩

theorem simSubst_cons_of_seen (values : GoMap String) (t : Char) (T seen us : List Char)
    (h : t ∈ seen) : simSubst values (t :: T) seen us = simSubst values T seen us := by
  induction us generalizing seen with
  | nil => rfl
  | cons c us ih =>
    simp only [simSubst]
    rw [ih (c :: seen) (List.mem_cons_of_mem _ h)]
    congr 1
    unfold substPiece
    by_cases hc : c = t
    · subst hc
      simp [h]
    · simp [hc]

theorem simSubst_cons_of_absent (values : GoMap String) (t : Char) (key : String)
    (T seen us : List Char) (hkey : keyOf t = some key) (hval : values key = none) :
    simSubst values (t :: T) seen us = simSubst values T seen us := by
  induction us generalizing seen with
  | nil => rfl
  | cons c us ih =>
    simp only [simSubst]
    rw [ih (c :: seen)]
    congr 1
    unfold substPiece
    by_cases hc : c = t
    · subst hc
      simp only [hkey, hval]
      split <;> split <;> rfl
    · simp [hc]

theorem simSubst_congr (values : GoMap String) (T T' seen us : List Char)
    (h : ∀ c, c ∈ T ↔ c ∈ T') : simSubst values T seen us = simSubst values T' seen us := by
  induction us generalizing seen with
  | nil => rfl
  | cons c us ih =>
    simp only [simSubst]
    rw [ih (c :: seen)]
    congr 1
    unfold substPiece
    simp only [h c]

theorem simSubst_nil (values : GoMap String) (seen us : List Char) :
    simSubst values [] seen us = us := by
  induction us generalizing seen with
  | nil => rfl
  | cons c us ih => simp [simSubst, substPiece, ih]

theorem not_mem_substPiece (values : GoMap String) (T seen : List Char) (c t : Char)
    (ht : t ∈ placeholders) (hfree : ∀ k v, values k = some v → placeholderFree v)
    (hc : c ≠ t) : t ∉ substPiece values T seen c := by
  unfold substPiece
  have hself : t ∉ [c] := by simpa using Ne.symm hc
  by_cases hcond : c ∈ T ∧ c ∉ seen
  · rw [if_pos hcond]
    cases hk : keyOf c with
    | none => exact hself
    | some k =>
      dsimp only
      cases hv : values k with
      | none => exact hself
      | some v => exact fun hmem => hfree k v hv t hmem ht
  · rw [if_neg hcond]
    exact hself

/-- One replacement on top of the simultaneous substitution of the tokens `T`: the
first occurrence of a further token is replaced as well. -/
theorem replaceOnce_simSubst (values : GoMap String) (t : Char) (key : String) (v : String)
    (T seen us : List Char) (ht : t ∈ placeholders)
    (hfree : ∀ k v, values k = some v → placeholderFree v)
    (hkey : keyOf t = some key) (hval : values key = some v) (hT : t ∉ T)
    (hseen : t ∉ seen) :
    replaceOnce [t] v.data (simSubst values T seen us) = simSubst values (t :: T) seen us := by
  induction us generalizing seen with
  | nil => simp [simSubst, replaceOnce_single_nil]
  | cons c us ih =>
    simp only [simSubst]
    by_cases hc : c = t
    · subst hc
      have hp : substPiece values T seen c = [c] := by simp [substPiece, hT]
      have hp' : substPiece values (c :: T) seen c = v.data := by
        simp [substPiece, hseen, hkey, hval]
      rw [hp, hp', List.singleton_append, replaceOnce_single_cons, if_pos rfl,
        simSubst_cons_of_seen values c T (c :: seen) us (List.mem_cons_self _ _)]
    · have hp : substPiece values (t :: T) seen c = substPiece values T seen c := by
        have hc' : ¬ t = c := fun e => hc e.symm
        simp [substPiece, hc, hc']
      rw [hp, replaceOnce_single_append_of_not_mem t v.data _ _
          (not_mem_substPiece values T seen c t ht hfree hc),
        ih (c :: seen) (by
          intro hmem
          rcases List.mem_cons.mp hmem with h1 | h1
          · exact hc h1.symm
          · exact hseen h1)]

theorem formatWith_data_aux (values : GoMap String) (u : List Char)
    (hfree : ∀ k v, values k = some v → placeholderFree v) (order : List Char) :
    ∀ (T : List Char) (cur : String), cur.data = simSubst values T [] u
      → order.Nodup → (∀ t ∈ order, t ∈ placeholders ∧ t ∉ T)
      → (formatWith order cur values).data = simSubst values (order.reverse ++ T) [] u := by
  induction order with
  | nil => intro T cur hcur _ _; simpa [formatWith] using hcur
  | cons t rest ih =>
    intro T cur hcur hnodup hmem
    obtain ⟨htP, htT⟩ := hmem t (List.mem_cons_self _ _)
    obtain ⟨key, hkey⟩ := keyOf_of_mem_placeholders t htP
    have hnd := List.nodup_cons.mp hnodup
    have hstep : (substKey values key ⟨[t]⟩ cur).data = simSubst values (t :: T) [] u := by
      unfold substKey
      cases hval : values key with
      | none =>
        rw [simSubst_cons_of_absent values t key T [] u hkey hval]
        exact hcur
      | some v =>
        simp only [Replace1, hcur]
        exact replaceOnce_simSubst values t key v T [] u htP hfree hkey hval htT (by simp)
    have hrest := ih (t :: T) (substKey values key ⟨[t]⟩ cur) hstep hnd.2 (by
      intro x hx
      refine ⟨(hmem x (List.mem_cons_of_mem _ hx)).1, ?_⟩
      intro hxm
      rcases List.mem_cons.mp hxm with h1 | h1
      · exact hnd.1 (h1 ▸ hx)
      · exact (hmem x (List.mem_cons_of_mem _ hx)).2 h1)
    have hfold : formatWith (t :: rest) cur values
        = formatWith rest (substKey values key ⟨[t]⟩ cur) values := by
      simp [formatWith, List.foldl_cons, hkey]
    rw [hfold, hrest]
    simp

theorem formatWith_data (values : GoMap String) (uri : String)
    (hfree : ∀ k v, values k = some v → placeholderFree v) (order : List Char)
    (hperm : order.Perm placeholders) :
    (formatWith order uri values).data = simSubst values placeholders [] uri.data := by
  have hnodup : order.Nodup := hperm.nodup_iff.mpr (by decide)
  rw [formatWith_data_aux values uri.data hfree order [] uri (simSubst_nil _ _ _).symm hnodup
    (fun t ht => ⟨hperm.mem_iff.mp ht, by simp⟩)]
  apply simSubst_congr
  intro c
  simp [hperm.mem_iff]

theorem formatURI_eq_formatWith (uri : String) (values : GoMap String) :
    formatURI uri values = formatWith sourceOrder uri values := rfl

/-- C23: when no value of the map contains a placeholder character, the result of
`formatURI` is the simultaneous substitution, in the original URI, of the first
occurrence of each placeholder whose key is present; and applying the six guarded
replacements in any other order gives the same result. -/
theorem formatURI_simultaneous (uri : String) (values : GoMap String)
    (hfree : ∀ k v, values k = some v → placeholderFree v) :
    (formatURI uri values).data = simSubst values placeholders [] uri.data
    ∧ ∀ order : List Char, order.Perm placeholders
        → formatWith order uri values = formatURI uri values := by
  have hsrc : sourceOrder.Perm placeholders := by decide
  have h1 : (formatURI uri values).data = simSubst values placeholders [] uri.data := by
    rw [formatURI_eq_formatWith]
    exact formatWith_data values uri hfree sourceOrder hsrc
  refine ⟨h1, ?_⟩
  intro order hperm
  apply String.ext
  rw [h1, formatWith_data values uri hfree order hperm]

/-- Witness of C23: the link template with the values of two sample records, in the
order of the source and in the reverse order. -/
theorem formatURI_simultaneous_witness :
    (formatURI (sampleBase ++ linkBusObRecURI) (linkValues "b1" "r1" "rel1" "b1" "r2")).data
      = simSubst (linkValues "b1" "r1" "rel1" "b1" "r2") placeholders []
          (sampleBase ++ linkBusObRecURI).data
    ∧ formatWith sourceOrder.reverse (sampleBase ++ linkBusObRecURI)
        (linkValues "b1" "r1" "rel1" "b1" "r2")
      = formatURI (sampleBase ++ linkBusObRecURI) (linkValues "b1" "r1" "rel1" "b1" "r2") :=
  have h := formatURI_simultaneous (sampleBase ++ linkBusObRecURI)
    (linkValues "b1" "r1" "rel1" "b1" "r2") (by
      intro k v hv
      simp only [linkValues, GoMap.insert, GoMap.empty] at hv
      split at hv
      · cases hv; decide
      · split at hv
        · cases hv; decide
        · split at hv
          · cases hv; decide
          · split at hv
            · cases hv; decide
            · split at hv
              · cases hv; decide
              · cases hv)
  ⟨h.1, h.2 sourceOrder.reverse (by decide)⟩

/-- C24: in the template of a record by id, with the business-object id `a#b` and
the record id `r1`, `formatURI` puts the record id into the inserted business-object
id: the result is `.../busobid/ar1b/busobrecid/#`, in which the supplied value `a#b`
does not occur and the `#` of the template is still there; the simultaneous
substitution would have given `.../busobid/a#b/busobrecid/r1`. -/
theorem formatURI_rewrites_inserted_value :
    clashValues "busobid" = some "a#b" ∧ clashValues "busobrecid" = some "r1"
    ∧ formatURI (sampleBase ++ getBusObRecByRecIdURI) clashValues
        = sampleBase ++ "api/v1/getbusinessobject/busobid/ar1b/busobrecid/#"
    ∧ ¬ ("a#b".data <:+: (formatURI (sampleBase ++ getBusObRecByRecIdURI) clashValues).data)
    ∧ (formatURI (sampleBase ++ getBusObRecByRecIdURI) clashValues).data.getLast? = some '#'
    ∧ simSubst clashValues placeholders [] (sampleBase ++ getBusObRecByRecIdURI).data
        = (sampleBase ++ "api/v1/getbusinessobject/busobid/a#b/busobrecid/r1").data := by
  refine ⟨by decide, by decide, by decide, by decide, by decide, by decide⟩

end Gocherwell
